import Mathlib

/-!
# Verification of the searchkit task pipeline and retrieval fusion

This file gives a shallow embedding, in Lean 4, of the core operations of the
searchkit repository and proves properties about them:

* the task store protocol (`src/tasks/repo.go`): `Enqueue`, `FetchReady`,
  `Complete`, `Fail`, `DeadLetter` over the `embedding_tasks` table;
* the worker outcome classification and retry backoff
  (`handleTaskResult`, `isRetryable`, `expBackoff`, `addJitter`);
* Reciprocal Rank Fusion (`src/search/rrf.go`, `FuseRRF`);
* two-stage vector search (`src/search/search.go`, `SearchVectors`);
* the semantic backfill tick (`backfillOnce`) and the dirty-queue
  reconciler (`processDirtyOnce`).

Conventions of the embedding:

* timestamps and durations are modelled as `Int` nanoseconds
  (Go `time.Time` / `time.Duration`);
* SQL tables are modelled as Lean lists of row structures; a SQL
  `UPDATE ... WHERE` is a `List.map` guarded by the WHERE predicate, a
  `DELETE ... WHERE` is a `List.filter` by the negated predicate;
* float scores are modelled by exact rationals (`ℚ`);
* Go's `strings.TrimSpace(s) == ""` test is modelled by `isBlank`
  (all characters whitespace).
-/

namespace Searchkit

/-- Mirrors the Go blank test `strings.TrimSpace(s) == ""`: a string is blank
iff every character is whitespace (in particular the empty string is blank). -/
def isBlank (s : String) : Bool := s.data.all Char.isWhitespace

/-- Mirrors Go `strings.TrimSpace`: drop leading and trailing whitespace. -/
def trimWs (s : String) : String :=
  ⟨((s.data.dropWhile Char.isWhitespace).reverse.dropWhile Char.isWhitespace).reverse⟩

/-- Byte-lexicographic `<` on strings as Go compares them (for UTF-8 encoded
strings byte order and code-point order coincide). -/
def strLtB : List Char → List Char → Bool
  | [], [] => false
  | [], _ :: _ => true
  | _ :: _, [] => false
  | a :: as, b :: bs => if a < b then true else if b < a then false else strLtB as bs

/-- Nanoseconds per second (`time.Second`). -/
def nsPerSec : Int := 1000000000

/-! ## Task store rows (`embedding_tasks` / `embedding_dead_letters`)

A task row as selected and mutated by `src/tasks/repo.go`.  The identity is
`(entity_type, entity_id, model)` (unique index `uq_embedding_tasks_entity_model`).
`created_at`/`updated_at` bookkeeping columns are not modelled. -/
structure TaskRow where
  entityType : String
  entityID : String
  model : String
  reason : String
  attempts : Int
  nextRunAt : Int
  startedAt : Option Int
  deriving DecidableEq, Repr

/-- A row of `embedding_dead_letters` (identity plus error metadata). -/
structure DeadLetterRow where
  entityType : String
  entityID : String
  model : String
  reason : String
  error : String
  attempts : Int
  failedAt : Int
  deriving DecidableEq, Repr

/-- The durable state touched by the task store protocol. -/
structure TaskStore where
  tasks : List TaskRow
  deadLetters : List DeadLetterRow
  deriving DecidableEq, Repr

/-- The SQL identity predicate
`entity_type = $1 AND entity_id = $2 AND model = $3` of repo.go. -/
def sameIdent (r : TaskRow) (et id mdl : String) : Bool :=
  r.entityType == et && r.entityID == id && r.model == mdl

/-- The identity tuple of a task row. -/
def taskIdent (r : TaskRow) : String × String × String :=
  (r.entityType, r.entityID, r.model)

/-- `Repo.Enqueue` (repo.go lines 24-44): validation, then
`INSERT ... ON CONFLICT (entity_type, entity_id, model) DO UPDATE SET
reason = EXCLUDED.reason, next_run_at = LEAST(next_run_at, now())`.
A fresh insert takes the table defaults `attempts = 0`,
`next_run_at = CURRENT_TIMESTAMP`.  `now` is the transaction timestamp. -/
def enqueue (schema : String) (now : Int) (s : TaskStore)
    (et id mdl reason : String) : Except String TaskStore :=
  if et == "" || mdl == "" then .error "entityType and model are required"
  else if isBlank id then .error "entityID is required"
  else if schema == "" then .error "schema is required"
  else if s.tasks.any (fun r => sameIdent r et id mdl) then
    .ok { s with tasks := s.tasks.map (fun r =>
      if sameIdent r et id mdl then
        { r with reason := reason, nextRunAt := min r.nextRunAt now }
      else r) }
  else
    .ok { s with tasks := s.tasks ++
      [{ entityType := et, entityID := id, model := mdl, reason := reason,
         attempts := 0, nextRunAt := now, startedAt := none }] }

/-- `Repo.Complete` (repo.go lines 110-123): blank identities are a silent
no-op; otherwise `DELETE ... WHERE identity AND next_run_at = $4`
(the lease-fencing check). -/
def complete (schema : String) (s : TaskStore)
    (et id mdl : String) (leaseUntil : Int) : Except String TaskStore :=
  if schema == "" then .error "schema is required"
  else if isBlank et || isBlank id || isBlank mdl then .ok s
  else .ok { s with tasks := s.tasks.filter (fun r =>
    !(sameIdent r et id mdl && r.nextRunAt == leaseUntil)) }

/-- `Repo.Fail` (repo.go lines 125-148): clamp the backoff to 30s when
non-positive, blank identities are a silent no-op; otherwise
`UPDATE ... SET attempts = attempts + 1,
next_run_at = now() + make_interval(secs => $1) WHERE identity AND
next_run_at = $5`, with `secs = max(backoff / time.Second, 1)`. -/
def fail (schema : String) (now : Int) (s : TaskStore)
    (et id mdl : String) (leaseUntil : Int) (backoff : Int) : Except String TaskStore :=
  let backoff := if backoff ≤ 0 then 30 * nsPerSec else backoff
  if schema == "" then .error "schema is required"
  else if isBlank et || isBlank id || isBlank mdl then .ok s
  else
    let secs := max (backoff / nsPerSec) 1
    .ok { s with tasks := s.tasks.map (fun r =>
      if sameIdent r et id mdl && r.nextRunAt == leaseUntil then
        { r with attempts := r.attempts + 1, nextRunAt := now + secs * nsPerSec }
      else r) }

/-- `Repo.DeadLetter` (repo.go lines 154-198): blank identities are a silent
no-op; otherwise one transaction that (1) upserts the dead-letter row keyed
by `(entity_type, entity_id, model)` with the task's reason, the error text
and `max(attempts, 0)`, then (2) deletes the task row gated by the fencing
check `next_run_at = leaseUntil`.  `errMsg = none` models a nil error,
replaced by `"unknown error"`. -/
def deadLetter (schema : String) (now : Int) (s : TaskStore)
    (t : TaskRow) (leaseUntil : Int) (errMsg : Option String) : Except String TaskStore :=
  if schema == "" then .error "schema is required"
  else if isBlank t.entityType || isBlank t.entityID || isBlank t.model then .ok s
  else
    let msg := errMsg.getD "unknown error"
    let att := if t.attempts < 0 then 0 else t.attempts
    let sameDL := fun (d : DeadLetterRow) =>
      d.entityType == t.entityType && d.entityID == t.entityID && d.model == t.model
    let dls :=
      if s.deadLetters.any sameDL then
        s.deadLetters.map (fun d =>
          if sameDL d then
            { d with reason := t.reason, error := msg, attempts := att, failedAt := now }
          else d)
      else
        s.deadLetters ++
          [{ entityType := t.entityType, entityID := t.entityID, model := t.model,
             reason := t.reason, error := msg, attempts := att, failedAt := now }]
    .ok { tasks := s.tasks.filter (fun r =>
            !(sameIdent r t.entityType t.entityID t.model && r.nextRunAt == leaseUntil)),
          deadLetters := dls }

/-! ## FetchReady and the lease model

`Repo.FetchReady` (repo.go lines 48-108) is a single SQL statement:

```
WITH picked AS (
  SELECT ... WHERE next_run_at <= $1
  ORDER BY next_run_at, entity_type, entity_id, model LIMIT $2
  FOR UPDATE SKIP LOCKED)
UPDATE ... SET next_run_at = $3, started_at = COALESCE(started_at, $1) ...
RETURNING ...
```

Row locks are modelled explicitly by a `locked` set: `FOR UPDATE SKIP LOCKED`
makes rows selected by an in-flight concurrent statement invisible
(`pickReady` skips them), and a statement's own picks stay locked until its
commit (`lockPicked` / `fetchReadyCommit`). -/

/-- Generic insertion into a list sorted by a boolean comparator. -/
def insertLe {α : Type} (le : α → α → Bool) (a : α) : List α → List α
  | [] => [a]
  | b :: bs => if le a b then a :: b :: bs else b :: insertLe le a bs

/-- Generic insertion sort by a boolean comparator; used to model SQL
`ORDER BY` clauses and Go's `sort.Slice`. -/
def sortByLe {α : Type} (le : α → α → Bool) : List α → List α
  | [] => []
  | a :: as => insertLe le a (sortByLe le as)

/-- The `ORDER BY next_run_at ASC, entity_type ASC, entity_id ASC, model ASC`
comparator of FetchReady. -/
def readyLe (a b : TaskRow) : Bool :=
  if a.nextRunAt ≠ b.nextRunAt then decide (a.nextRunAt < b.nextRunAt)
  else if a.entityType ≠ b.entityType then strLtB a.entityType.data b.entityType.data
  else if a.entityID ≠ b.entityID then strLtB a.entityID.data b.entityID.data
  else !strLtB b.model.data a.model.data

/-- Shared task table plus the set of identities row-locked by an in-flight
`FetchReady` statement. -/
structure LeaseState where
  rows : List TaskRow
  locked : List (String × String × String)
  deriving DecidableEq, Repr

/-- A row is visible to FetchReady's `picked` CTE iff it is due
(`next_run_at <= now`) and not locked by a concurrent statement
(`FOR UPDATE SKIP LOCKED`). -/
def isReady (locked : List (String × String × String)) (now : Int) (r : TaskRow) : Bool :=
  decide (r.nextRunAt ≤ now ∧ taskIdent r ∉ locked)

/-- The rows selected by FetchReady's `picked` CTE: due, unlocked rows in
`ORDER BY` order, limited to `limit` (`if limit <= 0` Go returns nothing). -/
def pickReady (s : LeaseState) (now : Int) (limit : Int) : List TaskRow :=
  if limit ≤ 0 then []
  else (sortByLe readyLe (s.rows.filter (isReady s.locked now))).take limit.toNat

/-- State in the middle of a FetchReady statement: the picked rows are
row-locked (and invisible to a concurrent SKIP LOCKED scan) but the
UPDATE has not committed yet. -/
def lockPicked (s : LeaseState) (now : Int) (limit : Int) : LeaseState :=
  { s with locked := s.locked ++ (pickReady s now limit).map taskIdent }

/-- Go clamps `lockAhead` to 30 seconds when non-positive. -/
def effectiveLockAhead (lockAhead : Int) : Int :=
  if lockAhead ≤ 0 then 30 * nsPerSec else lockAhead

/-- The UPDATE applied to one row: picked rows get
`next_run_at = next, started_at = COALESCE(started_at, now)`. -/
def leaseUpdate (now next : Int) (picked : List (String × String × String))
    (r : TaskRow) : TaskRow :=
  if taskIdent r ∈ picked then
    { r with nextRunAt := next, startedAt := some (r.startedAt.getD now) }
  else r

/-- The committed effect of one whole FetchReady statement: all picked rows
are leased until `now + lockAhead` and the statement's row locks are
released. -/
def fetchReadyCommit (s : LeaseState) (now lockAhead : Int) (limit : Int) : LeaseState :=
  let next := now + effectiveLockAhead lockAhead
  let picked := (pickReady s now limit).map taskIdent
  { rows := s.rows.map (leaseUpdate now next picked), locked := s.locked }

/-- The rows FetchReady RETURNs to its caller: the picked rows carrying the
new lease token `next_run_at = now + lockAhead` and the coalesced
`started_at` (RETURNING reads the post-UPDATE values). -/
def fetchReadyReturn (s : LeaseState) (now lockAhead : Int) (limit : Int) : List TaskRow :=
  let next := now + effectiveLockAhead lockAhead
  (pickReady s now limit).map (fun r =>
    { r with nextRunAt := next, startedAt := some (r.startedAt.getD now) })

/-! ## Worker outcome classification and retry backoff

From the worker source (`isRetryable`, `expBackoff`, `addJitter`,
`handleTaskResult`).  HTTP provider errors are modelled by their status code;
`other` stands for any non-HTTP error (network failure, context timeouts,
storage write failure), for which Go's `isRetryable` falls through to
`return true`. -/

/-- The worker options fields used by outcome classification
(`Options.MaxAttempts/BackoffBase/BackoffMax`). -/
structure WorkerOptions where
  maxAttempts : Int
  backoffBase : Int
  backoffMax : Int
  deriving DecidableEq, Repr

/-- The error shapes `handleTaskResult` can receive per item. -/
inductive ProviderError where
  | apiError (status : Int)
  | requestError (status : Int)
  | entityNotFound
  | other
  deriving DecidableEq, Repr

/-- Go `isRetryable`: OpenAI API/request errors are retryable iff the status
is 429, 408 or 5xx; everything that is not such an HTTP error is retryable. -/
def isRetryable : ProviderError → Bool
  | .apiError s => s == 429 || s == 408 || (decide (500 ≤ s) && decide (s ≤ 599))
  | .requestError s => s == 429 || s == 408 || (decide (500 ≤ s) && decide (s ≤ 599))
  | .entityNotFound => true
  | .other => true

/-- Go `expBackoff(base, attempt, max)`: clamp attempt to at least 1, then
`min(base * 2^(attempt-1), max)`. -/
def expBackoff (base attempt maxBackoff : Int) : Int :=
  let a := if attempt < 1 then 1 else attempt
  let d := base * 2 ^ (a - 1).toNat
  if d > maxBackoff then maxBackoff else d

/-- Go `addJitter(rng, d)`: non-positive delays unchanged, otherwise add the
jitter `j` drawn by the caller's rng from `[0, d/4)` (`rng.Int63n(d/4)`). -/
def addJitter (j d : Int) : Int :=
  if d ≤ 0 then d else d + j

/-- Which task-store operation `handleTaskResult` invokes for one item. -/
inductive Outcome where
  | complete
  | fail (backoff : Int)
  | deadLetter
  deriving DecidableEq, Repr

/-- Go `handleTaskResult`: nil error or `ErrEntityNotFound` → `Complete`;
otherwise the failure counts as the next attempt (`attempts0` is the row's
prior failure count); at the attempt cap or on a non-retryable error →
`DeadLetter`; otherwise `Fail` with jittered exponential backoff. -/
def handleTaskResult (cfg : WorkerOptions) (j attempts0 : Int)
    (err : Option ProviderError) : Outcome :=
  match err with
  | none => .complete
  | some .entityNotFound => .complete
  | some e =>
      let attempts := attempts0 + 1
      if attempts ≥ cfg.maxAttempts then .deadLetter
      else if !isRetryable e then .deadLetter
      else .fail (addJitter j (expBackoff cfg.backoffBase attempts cfg.backoffMax))

/-! ## Reciprocal Rank Fusion (`src/search/rrf.go`)

Float32 scores are modelled by exact rationals.  Go's `FuseRRF` accumulates
scores in a map keyed by the trimmed key string (deterministic, since the
input lists are walked in order), but then materializes and sorts the hits
with `sort.Slice` over Go's unordered map iteration: `sort.Slice` is not
stable, so the output order is pinned down only up to ties of the comparator.
`ValidFuse` characterizes the set of outputs `FuseRRF` may produce. -/

/-- The ephemeral fusion identity tuple. -/
structure RRFKey where
  entityType : String
  entityID : String
  language : String
  model : String
  deriving DecidableEq, Repr

/-- An identity plus its fused score. -/
structure RRFHit where
  key : RRFKey
  score : ℚ
  deriving DecidableEq, Repr

/-- `RRFOptions`: stabilizer `K` (default 60 when `≤ 0`) and per-list weights
(missing or non-positive entries default to 1.0). -/
structure RRFOptions where
  k : Int
  weights : List ℚ
  deriving Repr

/-- `RRFKey.keyString`: the trimmed fields joined by `"\x1f"`. -/
def keyString (k : RRFKey) : String :=
  String.intercalate "\x1f"
    [trimWs k.entityType, trimWs k.entityID, trimWs k.language, trimWs k.model]

/-- `k := opts.K; if k <= 0 { k = 60 }`. -/
def effectiveK (k : Int) : Int := if k ≤ 0 then 60 else k

/-- The weight used for list `li`: `weights[li]` when present and positive,
else 1.0 (Go pre-fills all-ones when `weights` is empty, which coincides). -/
def effectiveWeight (weights : List ℚ) (li : Nat) : ℚ :=
  match weights[li]? with
  | some w => if 0 < w then w else 1
  | none => 1

/-- The contribution of one ranked list (walked with 1-based `rank`) to the
score of the key string `ks`: `w / (k + rank)` for each occurrence. -/
def listContrib (k : Int) (w : ℚ) (ks : String) : List RRFKey → Nat → ℚ
  | [], _ => 0
  | item :: rest, rank =>
      (if keyString item == ks then w / ((k : ℚ) + rank) else 0) +
        listContrib k w ks rest (rank + 1)

/-- The fused score of key string `ks`: sum of the per-list contributions,
list `li` weighted by `effectiveWeight weights li`. -/
def fuseScore (k : Int) (weights : List ℚ) (ks : String) :
    List (List RRFKey) → Nat → ℚ
  | [], _ => 0
  | l :: rest, li =>
      listContrib k (effectiveWeight weights li) ks l 1 +
        fuseScore k weights ks rest (li + 1)

/-- The distinct key strings occurring across the input lists (the keys of
Go's `scores` map). -/
def allKeyStrings (lists : List (List RRFKey)) : List String :=
  (lists.flatten.map keyString).dedup

/-- The representative `RRFKey` stored for a key string: Go's `example` map
keeps the last-written occurrence. -/
def lastWith (lists : List (List RRFKey)) (ks : String) : RRFKey :=
  ((lists.flatten.filter (fun it => keyString it == ks)).getLast?).getD
    { entityType := "", entityID := "", language := "", model := "" }

/-- The multiset of hits `FuseRRF` builds before sorting: one hit per
distinct key string, scored by the RRF formula. -/
def canonicalHits (lists : List (List RRFKey)) (opts : RRFOptions) : List RRFHit :=
  (allKeyStrings lists).map (fun ks =>
    { key := lastWith lists ks
      score := fuseScore (effectiveK opts.k) opts.weights ks lists 0 })

/-- The `sort.Slice` comparator of `FuseRRF`: score descending, ties broken
by `entityType` then `entityID` ascending (language and model are *not*
compared). -/
def rrfLess (a b : RRFHit) : Bool :=
  if a.score = b.score then
    if a.key.entityType = b.key.entityType then
      strLtB a.key.entityID.data b.key.entityID.data
    else strLtB a.key.entityType.data b.key.entityType.data
  else decide (b.score < a.score)

/-- `out` is a possible result of `FuseRRF lists opts`: a permutation of the
canonical hits that is sorted with respect to the comparator (all
`sort.Slice` guarantees, since it is unstable and the hits come out of an
unordered map). -/
def ValidFuse (lists : List (List RRFKey)) (opts : RRFOptions)
    (out : List RRFHit) : Prop :=
  out.Perm (canonicalHits lists opts) ∧
    out.Pairwise (fun a b => rrfLess b a = false)

/-! ## Two-stage vector search (`src/search/search.go`, `SearchVectors`)

The `embedding_vectors` table is modelled per query: each row carries, for
the query vector at hand, its exact cosine similarity `sim`
(`1 - (embedding <=> qvec)`) and its stage-1 approximate distance
`approxDist` (Hamming distance of the binary quantizations); both are
computed by the storage engine (pgvector), which the spec treats as an
external collaborator.  `FilterSQL` (opaque host-provided SQL) is not
modelled.  SQL `ORDER BY ... LIMIT` tie-breaking is unspecified; the model
fixes it with a deterministic sort, which is irrelevant to the subset,
count and floor properties proved here. -/

/-- One `embedding_vectors` row, with its distances to the current query. -/
structure VecRow where
  entityType : String
  entityID : String
  model : String
  hasEmbedding : Bool
  approxDist : ℚ
  sim : ℚ
  deriving DecidableEq, Repr

/-- A returned candidate (`search.Hit`). -/
structure Hit where
  entityType : String
  entityID : String
  model : String
  similarity : ℚ
  deriving DecidableEq, Repr

/-- The query plus the `search.Options` fields the SQL depends on. -/
structure VecQuery where
  schema : String
  model : String
  qvecLen : Nat
  limit : Int
  entityTypes : List String
  excludeIDs : List String
  minSimilarity : ℚ
  oversampleFactor : Int
  deriving Repr

/-- The common WHERE filters: model match, non-null embedding, optional
entity-type allow-list and entity-id exclusion. -/
def eligibleRow (q : VecQuery) (r : VecRow) : Bool :=
  r.model == q.model && r.hasEmbedding &&
    (q.entityTypes.isEmpty || decide (r.entityType ∈ q.entityTypes)) &&
    !decide (r.entityID ∈ q.excludeIDs)

/-- `if opts.OversampleFactor <= 1 { opts.OversampleFactor = 5 }`. -/
def effectiveOversample (f : Int) : Int := if f ≤ 1 then 5 else f

/-- Stage-1 candidate generation: eligible rows ordered by approximate
(binary-quantized Hamming) distance, limited to
`q.limit * effectiveOversample q.oversampleFactor`. -/
def twoStageCandidates (rows : List VecRow) (q : VecQuery) : List VecRow :=
  (sortByLe (fun a b => decide (a.approxDist ≤ b.approxDist))
      (rows.filter (eligibleRow q))).take
    (q.limit * effectiveOversample q.oversampleFactor).toNat

/-- `ORDER BY embedding <=> qvec` ascending, i.e. similarity descending. -/
def simOrd (a b : VecRow) : Bool := decide (b.sim ≤ a.sim)

/-- Project a row onto the returned hit shape. -/
def toHit (r : VecRow) : Hit :=
  { entityType := r.entityType, entityID := r.entityID, model := r.model,
    similarity := r.sim }

/-- `SearchVectors`: validation, then either single-stage exact KNN, or
two-stage retrieval whose stage 2 keeps candidates with
`(1 - (embedding <=> qvec)) >= min_similarity` (the floor is part of the
SQL unconditionally) and re-ranks them by exact distance; finally the Go
row loop drops `similarity < MinSimilarity` rows only when
`MinSimilarity > 0`. -/
def searchVectors (rows : List VecRow) (q : VecQuery) (twoStage : Bool) :
    Except String (List Hit) :=
  if isBlank q.schema then .error "schema is required"
  else if isBlank q.model then .error "model is required"
  else if q.limit ≤ 0 then .ok []
  else if q.qvecLen == 0 then .ok []
  else
    let stage :=
      if twoStage then
        (sortByLe simOrd ((twoStageCandidates rows q).filter
            (fun r => decide (q.minSimilarity ≤ r.sim)))).take q.limit.toNat
      else
        (sortByLe simOrd (rows.filter (eligibleRow q))).take q.limit.toNat
    .ok ((stage.filter (fun r =>
        !(decide (0 < q.minSimilarity) && decide (r.sim < q.minSimilarity)))).map toHit)

/-! ## Semantic backfill tick (`backfillOnce`, semantic half)

One partition `(model, entity_type, language)` of the semantic loop of
`backfillOnce`.  The entity pager is the host collaborator
`ListEntityIDsPage`, modelled as a pure function of the cursor (the claim
concerns non-erroring pagers).  Presence of a stored vector for the
partition is modelled by the predicate `hasVec` on entity ids
(`pg.FilterMissingEmbeddings` keeps the ids without a vector row, skipping
blank ids when scanning). -/

/-- One row of `embedding_vectors_backfill_state` for a fixed partition. -/
structure BackfillPartitionState where
  cursor : String
  state : String
  lastError : Option String
  deriving DecidableEq, Repr

/-- `ensureAndGetVecBackfillState`: insert-if-absent with the table defaults
`cursor = ''`, `state = 'running'`, then read. -/
def ensureVecBackfillState (p : Option BackfillPartitionState) : BackfillPartitionState :=
  p.getD { cursor := "", state := "running", lastError := none }

/-- `pg.FilterMissingEmbeddings`: the ids without a stored vector for the
partition, with blank ids dropped while scanning. -/
def filterMissingEmbeddings (hasVec : String → Bool) (ids : List String) : List String :=
  (ids.filter (fun id => !hasVec id)).filter (fun id => !isBlank id)

/-- One `backfillOnce` visit of a single semantic partition: skip when
`done`; otherwise page from the stored cursor, enqueue the ids still
missing a vector (`EnqueueMany` with reason `model_backfill` — not under
`src/`, so its per-identity effect is the spec's idempotent `Enqueue` and
the returned list is the set of identities enqueued), then persist
`nextCursor` and `done`/`running`.  Returns the new partition state and the
enqueued identities. -/
def vecBackfillTick (hasVec : String → Bool)
    (pager : String → List String × String × Bool)
    (p : Option BackfillPartitionState) : BackfillPartitionState × List String :=
  let st := ensureVecBackfillState p
  if st.state == "done" then (st, [])
  else
    let page := pager st.cursor
    let missing := filterMissingEmbeddings hasVec page.1
    ({ cursor := page.2.1, state := if page.2.2 then "done" else "running",
       lastError := none }, missing)

/-! ## Dirty-queue reconciler (`processDirtyOnce`)

The searchkit durable state: lexical documents, stored vectors, queued tasks
(all keyed with a language component) and the dirty queue.  The lexical
rebuild (`BuildLexicalString` + `pg.UpsertSearchDocuments`, which chain a
host collaborator and heavy text normalization) is abstracted as an
arbitrary state transformer `upsertLex` applied once per
`(entity_type, language)` group, exactly as `processDirtyOnce` calls it.
The pass additionally emits a trace of its side effects in program order,
so ordering facts ("the marker is deleted only after the deletion cascade")
are visible. -/

/-- A `search_documents` row. -/
structure DocRow where
  entityType : String
  entityID : String
  language : String
  doc : String
  deriving DecidableEq, Repr

/-- An `embedding_vectors` row of the searchkit schema (vector payload not
modelled). -/
structure SkVecRow where
  entityType : String
  entityID : String
  model : String
  language : String
  deriving DecidableEq, Repr

/-- An `embedding_tasks` row of the searchkit schema (scheduling columns not
modelled; the reconciler claims only concern row existence). -/
structure SkTaskRow where
  entityType : String
  entityID : String
  model : String
  language : String
  reason : String
  deriving DecidableEq, Repr

/-- A `search_dirty` marker. -/
structure DirtyRow where
  entityType : String
  entityID : String
  language : String
  isDeleted : Bool
  reason : String
  deriving DecidableEq, Repr

/-- The searchkit durable state touched by one reconciler pass.  `dirty` is
kept in `updated_at ASC` order (the order the SQL batch query returns). -/
structure SkState where
  docs : List DocRow
  vecs : List SkVecRow
  tasks : List SkTaskRow
  dirty : List DirtyRow
  deriving DecidableEq, Repr

/-- The side effects of one reconciler pass, in program order. -/
inductive DirtyEvent where
  | delDoc (et id lang : String)
  | delVecs (et id lang : String)
  | delTasks (et id lang : String)
  | upsertDocs (et lang : String) (ids : List String)
  | enqueueTasks (et lang mdl : String) (ids : List String)
  | delMarker (et id lang : String)
  deriving DecidableEq, Repr

/-- `pg.DeleteSearchDocuments`: delete the lexical document of one identity. -/
def deleteSearchDocuments (s : SkState) (et id lang : String) : SkState :=
  { s with docs := s.docs.filter (fun d =>
      !(d.entityType == et && d.entityID == id && d.language == lang)) }

/-- `pg.DeleteEmbeddingVectorsForEntity`: delete all stored vectors (all
models) for one `(entity_type, entity_id, language)`. -/
def deleteEmbeddingVectorsForEntity (s : SkState) (et id lang : String) : SkState :=
  { s with vecs := s.vecs.filter (fun v =>
      !(v.entityType == et && v.entityID == id && v.language == lang)) }

/-- Modelled from the spec: `tasks.Repo.DeleteAllForEntity` is not under
`src/` (only its caller `processDirtyOnce` is); per §4.4 it deletes "any
queued tasks for that identity across all models". -/
def deleteAllTasksForEntity (s : SkState) (et id lang : String) : SkState :=
  { s with tasks := s.tasks.filter (fun t =>
      !(t.entityType == et && t.entityID == id && t.language == lang)) }

/-- Modelled from the spec: `tasks.Repo.EnqueueMany` is not under `src/`
(only its callers are); per §4.1 each identity is enqueued idempotently
(upsert on the task identity, refreshing `reason`). -/
def skEnqueue (s : SkState) (et id mdl lang reason : String) : SkState :=
  if s.tasks.any (fun t => t.entityType == et && t.entityID == id &&
      t.model == mdl && t.language == lang) then
    { s with tasks := s.tasks.map (fun t =>
        if t.entityType == et && t.entityID == id && t.model == mdl &&
            t.language == lang then { t with reason := reason } else t) }
  else
    { s with tasks := s.tasks ++
        [{ entityType := et, entityID := id, model := mdl, language := lang,
           reason := reason }] }

/-- Modelled from the spec: `EnqueueMany` enqueues every id of the group for
the given model and language. -/
def skEnqueueMany (s : SkState) (et : String) (ids : List String)
    (mdl lang reason : String) : SkState :=
  ids.foldl (fun acc id => skEnqueue acc et id mdl lang reason) s

/-- Rows with a blank identity component are skipped while scanning the
dirty batch. -/
def dirtyBlankSkip (r : DirtyRow) : Bool :=
  isBlank r.entityType || isBlank r.entityID || isBlank r.language

/-- The `(entity_type, language)` groups of the non-deleted markers of a
tracked entity type (Go iterates nested maps in unspecified order; the model
fixes first-occurrence order, which the theorems do not rely on). -/
def groupPairs (batch : List DirtyRow) (tracked : List String) :
    List (String × String) :=
  ((batch.filter (fun r => !r.isDeleted && decide (r.entityType ∈ tracked))).map
    (fun r => (r.entityType, r.language))).dedup

/-- The entity ids of one `(entity_type, language)` group, in batch order. -/
def groupIds (batch : List DirtyRow) (tracked : List String)
    (et lang : String) : List String :=
  ((batch.filter (fun r => !r.isDeleted && decide (r.entityType ∈ tracked) &&
      r.entityType == et && r.language == lang)).map (fun r => r.entityID))

/-- The deletion cascade for one deleted marker, with its trace. -/
def deleteCascade (acc : SkState × List DirtyEvent) (r : DirtyRow) :
    SkState × List DirtyEvent :=
  if r.isDeleted then
    (deleteAllTasksForEntity
        (deleteEmbeddingVectorsForEntity
          (deleteSearchDocuments acc.1 r.entityType r.entityID r.language)
          r.entityType r.entityID r.language)
        r.entityType r.entityID r.language,
      acc.2 ++ [.delDoc r.entityType r.entityID r.language,
        .delVecs r.entityType r.entityID r.language,
        .delTasks r.entityType r.entityID r.language])
  else acc

/-- One reconciler pass (`processDirtyOnce`): fetch a bounded, age-ordered
batch skipping blank rows; process deletions first; rebuild lexical
documents once per group via the abstract `upsertLex`; fan non-deleted
semantic markers out to every active model; finally clear the processed
markers.  Returns the new state and the event trace. -/
def processDirtyOnce
    (upsertLex : SkState → String → String → List String → SkState)
    (lexicalSet semanticSet activeModels : List String)
    (limit : Int) (s : SkState) : SkState × List DirtyEvent :=
  if limit ≤ 0 then (s, [])
  else
    let batch := (s.dirty.take limit.toNat).filter (fun r => !dirtyBlankSkip r)
    if batch.isEmpty then (s, [])
    else
      let del := batch.foldl deleteCascade (s, [])
      let lex := (groupPairs batch lexicalSet).foldl
        (fun acc p =>
          let ids := groupIds batch lexicalSet p.1 p.2
          (upsertLex acc.1 p.1 p.2 ids,
            acc.2 ++ [.upsertDocs p.1 p.2 ids])) del
      let sem := (groupPairs batch semanticSet).foldl
        (fun acc p =>
          let ids := groupIds batch semanticSet p.1 p.2
          activeModels.foldl (fun acc2 mdl =>
            (skEnqueueMany acc2.1 p.1 ids mdl p.2 "dirty",
              acc2.2 ++ [.enqueueTasks p.1 p.2 mdl ids])) acc) lex
      ({ sem.1 with dirty := sem.1.dirty.filter (fun d =>
          !(batch.any (fun b => b.entityType == d.entityType &&
            b.entityID == d.entityID && b.language == d.language))) },
        sem.2 ++ batch.map (fun r =>
          .delMarker r.entityType r.entityID r.language))

/-! ## Shared lemmas about the sorting helper -/

theorem mem_insertLe {α : Type} (le : α → α → Bool) (a x : α) (l : List α) :
    x ∈ insertLe le a l ↔ x = a ∨ x ∈ l := by
  induction l with
  | nil => simp [insertLe]
  | cons b bs ih =>
      by_cases h : le a b = true
      · simp [insertLe, h]
      · simp only [insertLe, h, if_neg]
        simp [ih]
        tauto

theorem mem_sortByLe {α : Type} (le : α → α → Bool) (x : α) (l : List α) :
    x ∈ sortByLe le l ↔ x ∈ l := by
  induction l with
  | nil => simp [sortByLe]
  | cons b bs ih => simp [sortByLe, mem_insertLe, ih]

theorem length_insertLe {α : Type} (le : α → α → Bool) (a : α) (l : List α) :
    (insertLe le a l).length = l.length + 1 := by
  induction l with
  | nil => simp [insertLe]
  | cons b bs ih =>
      by_cases h : le a b = true
      · simp [insertLe, h]
      · simp [insertLe, h, ih]

theorem length_sortByLe {α : Type} (le : α → α → Bool) (l : List α) :
    (sortByLe le l).length = l.length := by
  induction l with
  | nil => rfl
  | cons b bs ih => simp [sortByLe, length_insertLe, ih]

theorem perm_insertLe {α : Type} (le : α → α → Bool) (a : α) (l : List α) :
    (insertLe le a l).Perm (a :: l) := by
  induction l with
  | nil => simp [insertLe]
  | cons b bs ih =>
      by_cases h : le a b = true
      · simp [insertLe, h]
      · simp only [insertLe, h, if_neg]
        exact ((ih.cons b).trans (List.Perm.swap a b bs)).symm.symm

theorem perm_sortByLe {α : Type} (le : α → α → Bool) (l : List α) :
    (sortByLe le l).Perm l := by
  induction l with
  | nil => simp [sortByLe]
  | cons b bs ih => exact (perm_insertLe le b (sortByLe le bs)).trans (ih.cons b)

/-! ## C1: stale lease tokens make Complete/Fail/DeadLetter no-ops -/

/-- **C1.** For every task identity and every lease token different from the
current `next_run_at` of every row of that identity, `Complete`, `Fail` and
`DeadLetter` return without error and leave the task table — hence the
row's `next_run_at`, `attempts` and `reason` — unchanged. -/
theorem stale_token_noop (schema : String) (s : TaskStore) (t : TaskRow)
    (tok now backoff : Int) (errMsg : Option String)
    (hschema : schema ≠ "")
    (hstale : ∀ r ∈ s.tasks,
      sameIdent r t.entityType t.entityID t.model = true → r.nextRunAt ≠ tok) :
    complete schema s t.entityType t.entityID t.model tok = .ok s ∧
    fail schema now s t.entityType t.entityID t.model tok backoff = .ok s ∧
    ∃ s', deadLetter schema now s t tok errMsg = .ok s' ∧ s'.tasks = s.tasks := by
  have hs : (schema == "") = false := beq_eq_false_iff_ne.mpr hschema
  have hfilter : s.tasks.filter (fun r =>
      !(sameIdent r t.entityType t.entityID t.model && r.nextRunAt == tok)) = s.tasks := by
    apply List.filter_eq_self.mpr
    intro r hr
    cases hsi : sameIdent r t.entityType t.entityID t.model with
    | false => simp [hsi]
    | true =>
        have hne := hstale r hr hsi
        simp [hsi, beq_eq_false_iff_ne.mpr hne]
  refine ⟨?_, ?_, ?_⟩
  · unfold complete
    rw [hs]
    by_cases hb : (isBlank t.entityType || isBlank t.entityID || isBlank t.model) = true
    · simp [hb]
    · simp only [hb, Bool.false_eq_true, if_false, if_neg]
      rw [hfilter]
  · unfold fail
    rw [hs]
    by_cases hb : (isBlank t.entityType || isBlank t.entityID || isBlank t.model) = true
    · simp [hb]
    · simp only [hb, Bool.false_eq_true, if_false, if_neg]
      have hmap : s.tasks.map (fun r =>
          if sameIdent r t.entityType t.entityID t.model && r.nextRunAt == tok then
            { r with attempts := r.attempts + 1,
                     nextRunAt := now + max ((if backoff ≤ 0 then 30 * nsPerSec else backoff) / nsPerSec) 1 * nsPerSec }
          else r) = s.tasks := by
        have : ∀ r ∈ s.tasks,
            (sameIdent r t.entityType t.entityID t.model && r.nextRunAt == tok) = false := by
          intro r hr
          cases hsi : sameIdent r t.entityType t.entityID t.model with
          | false => simp [hsi]
          | true =>
              have hne := hstale r hr hsi
              simp [hsi, beq_eq_false_iff_ne.mpr hne]
        calc s.tasks.map _ = s.tasks.map id := by
              apply List.map_congr_left
              intro r hr
              simp [this r hr]
          _ = s.tasks := List.map_id s.tasks
      rw [hmap]
  · unfold deadLetter
    rw [hs]
    by_cases hb : (isBlank t.entityType || isBlank t.entityID || isBlank t.model) = true
    · exact ⟨s, by simp [hb], rfl⟩
    · simp only [hb, Bool.false_eq_true, if_false, if_neg]
      exact ⟨_, rfl, hfilter⟩

/-- Witness for `stale_token_noop` at a concrete store: one row leased until
5, mutated with the stale token 6. -/
theorem stale_token_noop_witness :
    (("s" : String) ≠ "" ∧
      ∀ r ∈ (TaskStore.mk
        [{ entityType := "e", entityID := "1", model := "m", reason := "r",
           attempts := 0, nextRunAt := 5, startedAt := none }] []).tasks,
        sameIdent r "e" "1" "m" = true → r.nextRunAt ≠ 6) ∧
    (complete "s" (TaskStore.mk
        [{ entityType := "e", entityID := "1", model := "m", reason := "r",
           attempts := 0, nextRunAt := 5, startedAt := none }] [])
        "e" "1" "m" 6 = .ok (TaskStore.mk
        [{ entityType := "e", entityID := "1", model := "m", reason := "r",
           attempts := 0, nextRunAt := 5, startedAt := none }] []) ∧
      fail "s" 0 (TaskStore.mk
        [{ entityType := "e", entityID := "1", model := "m", reason := "r",
           attempts := 0, nextRunAt := 5, startedAt := none }] [])
        "e" "1" "m" 6 0 = .ok (TaskStore.mk
        [{ entityType := "e", entityID := "1", model := "m", reason := "r",
           attempts := 0, nextRunAt := 5, startedAt := none }] []) ∧
      ∃ s', deadLetter "s" 0 (TaskStore.mk
        [{ entityType := "e", entityID := "1", model := "m", reason := "r",
           attempts := 0, nextRunAt := 5, startedAt := none }] [])
        { entityType := "e", entityID := "1", model := "m", reason := "r",
          attempts := 0, nextRunAt := 5, startedAt := none } 6 none = .ok s' ∧
        s'.tasks = (TaskStore.mk
        [{ entityType := "e", entityID := "1", model := "m", reason := "r",
           attempts := 0, nextRunAt := 5, startedAt := none }] []).tasks) :=
  ⟨⟨by decide, by decide⟩,
    stale_token_noop "s" _
      { entityType := "e", entityID := "1", model := "m", reason := "r",
        attempts := 0, nextRunAt := 5, startedAt := none } 6 0 0 none
      (by decide) (by decide)⟩

/-! ## C10: blank identity components — silent no-op vs validation error

`Complete`/`Fail`/`DeadLetter` treat any empty-or-whitespace identity
component as a silent no-op.  `Enqueue`, however, validates `entityType` and
`model` with `== ""` (exact emptiness, no trimming) and only `entityID` with
`TrimSpace`: a whitespace-only `entityType` or `model` passes Enqueue's
validation, contradicting the claim that the same blank inputs always get a
validation error there. -/

/-- **C10 counterexample.** With `entityType = " "` (whitespace-only),
`Complete` silently no-ops returning no error — but `Enqueue` with the very
same inputs does *not* return a validation error: it inserts a row whose
`entity_type` is `" "`. -/
theorem blank_inputs_cex :
    complete "s" (TaskStore.mk [] []) " " "x" "m" 0 = .ok (TaskStore.mk [] []) ∧
    enqueue "s" 0 (TaskStore.mk [] []) " " "x" "m" "r" =
      .ok (TaskStore.mk
        [{ entityType := " ", entityID := "x", model := "m", reason := "r",
           attempts := 0, nextRunAt := 0, startedAt := none }] []) :=
  ⟨rfl, rfl⟩

/-- **C10 (amended).** For every call to `Complete`, `Fail` or `DeadLetter`
in which `entityType`, `entityID` or `model` is empty or whitespace-only,
the operation returns nil and mutates nothing; `Enqueue` with the same
inputs returns a validation error exactly when `entityType` or `model` is
the empty string or `entityID` is empty-or-whitespace (a whitespace-only
`entityType` or `model` passes Enqueue's validation). -/
theorem blank_inputs_amended (schema : String) (now : Int) (s : TaskStore)
    (t : TaskRow) (reason : String) (tok backoff : Int) (errMsg : Option String)
    (hschema : schema ≠ "")
    (hblank : (isBlank t.entityType || isBlank t.entityID || isBlank t.model) = true) :
    complete schema s t.entityType t.entityID t.model tok = .ok s ∧
    fail schema now s t.entityType t.entityID t.model tok backoff = .ok s ∧
    deadLetter schema now s t tok errMsg = .ok s ∧
    ((∃ e, enqueue schema now s t.entityType t.entityID t.model reason = .error e) ↔
      (t.entityType = "" ∨ t.model = "" ∨ isBlank t.entityID = true)) := by
  have hs : (schema == "") = false := beq_eq_false_iff_ne.mpr hschema
  refine ⟨?_, ?_, ?_, ?_⟩
  · unfold complete
    rw [hs]
    simp [hblank]
  · unfold fail
    rw [hs]
    simp [hblank]
  · unfold deadLetter
    rw [hs]
    simp [hblank]
  · unfold enqueue
    by_cases h1 : (t.entityType == "" || t.model == "") = true
    · constructor
      · intro _
        rcases (Bool.or_eq_true _ _).mp h1 with h | h
        · exact Or.inl (beq_iff_eq.mp h)
        · exact Or.inr (Or.inl (beq_iff_eq.mp h))
      · intro _
        exact ⟨"entityType and model are required", by simp [h1]⟩
    · have h1' : (t.entityType == "" || t.model == "") = false := Bool.eq_false_iff.mpr h1
      by_cases h2 : isBlank t.entityID = true
      · constructor
        · intro _
          exact Or.inr (Or.inr h2)
        · intro _
          exact ⟨"entityID is required", by simp [h1', h2]⟩
      · have h2' : isBlank t.entityID = false := Bool.eq_false_iff.mpr h2
        constructor
        · rintro ⟨e, he⟩
          by_cases hany : (s.tasks.any fun r => sameIdent r t.entityType t.entityID t.model) = true
          · simp [h1', h2', hs, hany] at he
          · simp [h1', h2', hs, hany] at he
        · rintro (h | h | h)
          · have := (Bool.or_eq_false_iff.mp h1').1
            simp [h] at this
          · have := (Bool.or_eq_false_iff.mp h1').2
            simp [h] at this
          · simp [h] at h2'

/-- Witness for `blank_inputs_amended` with whitespace-only `entityType`:
the three mutating operations no-op, and Enqueue does not error. -/
theorem blank_inputs_amended_witness :
    (("s" : String) ≠ "" ∧
      (isBlank (" " : String) || isBlank ("x" : String) || isBlank ("m" : String)) = true) ∧
    (complete "s" (TaskStore.mk [] []) " " "x" "m" 0 = .ok (TaskStore.mk [] []) ∧
      fail "s" 0 (TaskStore.mk [] []) " " "x" "m" 0 7 = .ok (TaskStore.mk [] []) ∧
      deadLetter "s" 0 (TaskStore.mk [] [])
        { entityType := " ", entityID := "x", model := "m", reason := "r",
          attempts := 0, nextRunAt := 0, startedAt := none } 0 none =
        .ok (TaskStore.mk [] []) ∧
      ((∃ e, enqueue "s" 0 (TaskStore.mk [] []) " " "x" "m" "q" = .error e) ↔
        ((" " : String) = "" ∨ ("m" : String) = "" ∨ isBlank ("x" : String) = true))) :=
  ⟨⟨by decide, by decide⟩,
    blank_inputs_amended "s" 0 (TaskStore.mk [] [])
      { entityType := " ", entityID := "x", model := "m", reason := "r",
        attempts := 0, nextRunAt := 0, startedAt := none } "q" 0 7 none
      (by decide) (by decide)⟩

/-! ## C4: Enqueue is an idempotent upsert on the task identity -/

/-- At most one row per task identity (the unique index
`uq_embedding_tasks_entity_model`). -/
def uniqueIdents (l : List TaskRow) : Prop :=
  l.Pairwise (fun a b => taskIdent a ≠ taskIdent b)

/-- The row of a given identity, if any. -/
def findTask (l : List TaskRow) (et id mdl : String) : Option TaskRow :=
  l.find? (fun r => sameIdent r et id mdl)

theorem sameIdent_iff (r : TaskRow) (et id mdl : String) :
    sameIdent r et id mdl = true ↔ taskIdent r = (et, id, mdl) := by
  simp [sameIdent, taskIdent, Prod.ext_iff, and_assoc]

theorem find?_map_of_pres (l : List TaskRow) (p : TaskRow → Bool)
    (f : TaskRow → TaskRow) (hp : ∀ r, p (f r) = p r) :
    (l.map f).find? p = (l.find? p).map f := by
  induction l with
  | nil => rfl
  | cons a as ih =>
      simp only [List.map_cons, List.find?_cons]
      rw [hp a]
      cases h : p a <;> simp [h, ih]

theorem sameIdent_updateRow (r : TaskRow) (reason : String) (n : Int)
    (et id mdl : String) :
    sameIdent { r with reason := reason, nextRunAt := n } et id mdl =
      sameIdent r et id mdl := rfl

theorem taskIdent_updateRow (r : TaskRow) (reason : String) (n : Int) :
    taskIdent { r with reason := reason, nextRunAt := n } = taskIdent r := rfl

/-- **C4.** `Enqueue` with valid inputs is an idempotent upsert on the task
identity: uniqueness of identities is preserved (no duplicate row is ever
created); when the identity is absent a single row with
`next_run_at = now`, `attempts = 0` is appended; when the identity is
present the row count is unchanged, the identity's row now carries the new
`reason` and `next_run_at = min(previous, now)`, and all other rows are
untouched. -/
theorem enqueue_upsert (schema : String) (now : Int) (s : TaskStore)
    (et id mdl reason : String)
    (h1 : et ≠ "") (h2 : mdl ≠ "") (h3 : isBlank id = false) (h4 : schema ≠ "")
    (huniq : uniqueIdents s.tasks) :
    ∃ s', enqueue schema now s et id mdl reason = .ok s' ∧
      uniqueIdents s'.tasks ∧
      (findTask s.tasks et id mdl = none →
        s'.tasks = s.tasks ++
          [{ entityType := et, entityID := id, model := mdl, reason := reason,
             attempts := 0, nextRunAt := now, startedAt := none }]) ∧
      (∀ r0, findTask s.tasks et id mdl = some r0 →
        s'.tasks.length = s.tasks.length ∧
        findTask s'.tasks et id mdl =
          some { r0 with reason := reason, nextRunAt := min r0.nextRunAt now } ∧
        ∀ r ∈ s.tasks, sameIdent r et id mdl = false → r ∈ s'.tasks) := by
  have he : (et == "" || mdl == "") = false := by
    simp [beq_eq_false_iff_ne.mpr h1, beq_eq_false_iff_ne.mpr h2]
  have hsch : (schema == "") = false := beq_eq_false_iff_ne.mpr h4
  unfold enqueue
  rw [he, h3, hsch]
  simp only [Bool.false_eq_true, if_false]
  by_cases hany : (s.tasks.any fun r => sameIdent r et id mdl) = true
  · rw [if_pos hany]
    set f : TaskRow → TaskRow := fun r =>
      if sameIdent r et id mdl then
        { r with reason := reason, nextRunAt := min r.nextRunAt now }
      else r with hf
    have hpres : ∀ r, sameIdent (f r) et id mdl = sameIdent r et id mdl := by
      intro r
      simp only [hf]
      split
      · exact sameIdent_updateRow r reason _ et id mdl
      · rfl
    have hid : ∀ r, taskIdent (f r) = taskIdent r := by
      intro r
      simp only [hf]
      split
      · exact taskIdent_updateRow r reason _
      · rfl
    refine ⟨_, rfl, ?_, ?_, ?_⟩
    · exact List.Pairwise.map f (fun a b h => by rw [hid a, hid b]; exact h) huniq
    · intro hnone
      exfalso
      rcases List.any_eq_true.mp hany with ⟨r, hr, hpr⟩
      exact absurd (List.find?_eq_none.mp hnone r hr) (by simp [hpr])
    · intro r0 hr0
      unfold findTask at hr0
      have hp0 : sameIdent r0 et id mdl = true :=
        @List.find?_some TaskRow (fun r => sameIdent r et id mdl) r0 s.tasks hr0
      refine ⟨by simp, ?_, ?_⟩
      · unfold findTask
        rw [find?_map_of_pres _ _ _ hpres, hr0]
        rw [Option.map_some']
        congr 1
        simp only [hf]
        rw [if_pos hp0]
      · intro r hr hfa
        have hfr : f r = r := by
          simp only [hf]
          rw [if_neg (by simp [hfa])]
        exact hfr ▸ List.mem_map_of_mem f hr
  · rw [if_neg hany]
    have hnone : findTask s.tasks et id mdl = none := by
      apply List.find?_eq_none.mpr
      intro r hr
      simp only [Bool.not_eq_true]
      exact Bool.eq_false_iff.mpr fun hc =>
        hany (List.any_eq_true.mpr ⟨r, hr, hc⟩)
    refine ⟨_, rfl, ?_, ?_, ?_⟩
    · apply List.pairwise_append.mpr
      refine ⟨huniq, List.pairwise_singleton _ _, ?_⟩
      intro a ha b hb
      have hb' := List.mem_singleton.mp hb
      subst hb'
      have hfa : sameIdent a et id mdl = false := by
        have := List.find?_eq_none.mp hnone a ha
        simpa using this
      intro hcontra
      have hsi : taskIdent a = (et, id, mdl) := hcontra
      rw [← sameIdent_iff] at hsi
      rw [hsi] at hfa
      cases hfa
    · intro _
      rfl
    · intro r0 hr0
      rw [hnone] at hr0
      cases hr0

/-- Witness for `enqueue_upsert`: re-enqueueing an existing identity whose
`next_run_at` (9) lies after `now` (4). -/
theorem enqueue_upsert_witness :
    (("e" : String) ≠ "" ∧ ("m" : String) ≠ "" ∧ isBlank "1" = false ∧
      ("s" : String) ≠ "" ∧
      uniqueIdents (TaskStore.mk
        [{ entityType := "e", entityID := "1", model := "m", reason := "old",
           attempts := 2, nextRunAt := 9, startedAt := none }] []).tasks) ∧
    (∃ s', enqueue "s" 4 (TaskStore.mk
        [{ entityType := "e", entityID := "1", model := "m", reason := "old",
           attempts := 2, nextRunAt := 9, startedAt := none }] [])
        "e" "1" "m" "new" = .ok s' ∧
      uniqueIdents s'.tasks ∧
      (findTask (TaskStore.mk
        [{ entityType := "e", entityID := "1", model := "m", reason := "old",
           attempts := 2, nextRunAt := 9, startedAt := none }] []).tasks
          "e" "1" "m" = none →
        s'.tasks = (TaskStore.mk
        [{ entityType := "e", entityID := "1", model := "m", reason := "old",
           attempts := 2, nextRunAt := 9, startedAt := none }] []).tasks ++
          [{ entityType := "e", entityID := "1", model := "m", reason := "new",
             attempts := 0, nextRunAt := 4, startedAt := none }]) ∧
      (∀ r0, findTask (TaskStore.mk
        [{ entityType := "e", entityID := "1", model := "m", reason := "old",
           attempts := 2, nextRunAt := 9, startedAt := none }] []).tasks
          "e" "1" "m" = some r0 →
        s'.tasks.length = (TaskStore.mk
        [{ entityType := "e", entityID := "1", model := "m", reason := "old",
           attempts := 2, nextRunAt := 9, startedAt := none }] []).tasks.length ∧
        findTask s'.tasks "e" "1" "m" =
          some { r0 with reason := "new", nextRunAt := min r0.nextRunAt 4 } ∧
        ∀ r ∈ (TaskStore.mk
        [{ entityType := "e", entityID := "1", model := "m", reason := "old",
           attempts := 2, nextRunAt := 9, startedAt := none }] []).tasks,
          sameIdent r "e" "1" "m" = false → r ∈ s'.tasks)) :=
  ⟨⟨by decide, by decide, by decide, by decide,
      by unfold uniqueIdents; exact List.pairwise_singleton _ _⟩,
    enqueue_upsert "s" 4 (TaskStore.mk
        [{ entityType := "e", entityID := "1", model := "m", reason := "old",
           attempts := 2, nextRunAt := 9, startedAt := none }] [])
      "e" "1" "m" "new" (by decide) (by decide) (by decide) (by decide)
      (by unfold uniqueIdents; exact List.pairwise_singleton _ _)⟩

/-! ## C2: concurrent FetchReady calls never double-lease -/

theorem taskIdent_leaseUpdate (now next : Int)
    (picked : List (String × String × String)) (r : TaskRow) :
    taskIdent (leaseUpdate now next picked r) = taskIdent r := by
  unfold leaseUpdate
  split <;> rfl

theorem mem_pickReady_props (s : LeaseState) (now limit : Int) (y : TaskRow)
    (hy : y ∈ pickReady s now limit) :
    y ∈ s.rows ∧ y.nextRunAt ≤ now ∧ taskIdent y ∉ s.locked := by
  unfold pickReady at hy
  by_cases hl : limit ≤ 0
  · rw [if_pos hl] at hy
    cases hy
  · rw [if_neg hl] at hy
    have hy' := List.mem_of_mem_take hy
    rw [mem_sortByLe] at hy'
    have hmem := List.mem_filter.mp hy'
    have hrd := of_decide_eq_true hmem.2
    exact ⟨hmem.1, hrd.1, hrd.2⟩

/-- **C2.** Against one shared store, a FetchReady call at time `tA` and a
concurrent FetchReady call at time `tB` earlier than the first call's lease
expiry (`tB < tA + lockAhead`, i.e. the first caller's leases are still
unexpired) never return a common task identity — whether the second call's
snapshot is taken while the first statement is still in flight (its picked
rows are row-locked and skipped by `SKIP LOCKED` scans) or after it
committed (the leased rows' `next_run_at` now lies beyond `tB`). -/
theorem fetchReady_no_double_lease (s : LeaseState)
    (tA tB lockA limA limB : Int)
    (hunexpired : tB < tA + effectiveLockAhead lockA) :
    (∀ x ∈ pickReady s tA limA, ∀ y ∈ pickReady (lockPicked s tA limA) tB limB,
      taskIdent x ≠ taskIdent y) ∧
    (∀ x ∈ pickReady s tA limA,
      ∀ y ∈ pickReady (fetchReadyCommit s tA lockA limA) tB limB,
        taskIdent x ≠ taskIdent y) := by
  constructor
  · intro x hx y hy heq
    have hprops := mem_pickReady_props _ _ _ _ hy
    have hlocked : taskIdent y ∉ (lockPicked s tA limA).locked := hprops.2.2
    apply hlocked
    show taskIdent y ∈ s.locked ++ (pickReady s tA limA).map taskIdent
    apply List.mem_append.mpr
    right
    rw [← heq]
    exact List.mem_map_of_mem taskIdent hx
  · intro x hx y hy heq
    have hprops := mem_pickReady_props _ _ _ _ hy
    have hrows : y ∈ (fetchReadyCommit s tA lockA limA).rows := hprops.1
    unfold fetchReadyCommit at hrows
    rcases List.mem_map.mp hrows with ⟨r, hr, hry⟩
    have hidr : taskIdent y = taskIdent r := by
      rw [← hry, taskIdent_leaseUpdate]
    have hpicked : taskIdent r ∈ (pickReady s tA limA).map taskIdent := by
      rw [← hidr, ← heq]
      exact List.mem_map_of_mem taskIdent hx
    have hyeq : y = { r with
        nextRunAt := tA + effectiveLockAhead lockA,
        startedAt := some (r.startedAt.getD tA) } := by
      rw [← hry]
      unfold leaseUpdate
      rw [if_pos hpicked]
    have : y.nextRunAt = tA + effectiveLockAhead lockA := by
      rw [hyeq]
    have hcontr := hprops.2.1
    rw [this] at hcontr
    exact absurd (lt_of_le_of_lt hcontr hunexpired) (lt_irrefl _)

/-- Witness for `fetchReady_no_double_lease`: two due rows, the first call
(limit 1, default 30s lease) picks one; a concurrent call one nanosecond
later never sees it. -/
theorem fetchReady_no_double_lease_witness :
    ((1 : Int) < 0 + effectiveLockAhead 0) ∧
    ((∀ x ∈ pickReady (LeaseState.mk
        [{ entityType := "e", entityID := "1", model := "m", reason := "r",
           attempts := 0, nextRunAt := 0, startedAt := none },
         { entityType := "e", entityID := "2", model := "m", reason := "r",
           attempts := 0, nextRunAt := 0, startedAt := none }] []) 0 1,
      ∀ y ∈ pickReady (lockPicked (LeaseState.mk
        [{ entityType := "e", entityID := "1", model := "m", reason := "r",
           attempts := 0, nextRunAt := 0, startedAt := none },
         { entityType := "e", entityID := "2", model := "m", reason := "r",
           attempts := 0, nextRunAt := 0, startedAt := none }] []) 0 1) 1 5,
        taskIdent x ≠ taskIdent y) ∧
     (∀ x ∈ pickReady (LeaseState.mk
        [{ entityType := "e", entityID := "1", model := "m", reason := "r",
           attempts := 0, nextRunAt := 0, startedAt := none },
         { entityType := "e", entityID := "2", model := "m", reason := "r",
           attempts := 0, nextRunAt := 0, startedAt := none }] []) 0 1,
      ∀ y ∈ pickReady (fetchReadyCommit (LeaseState.mk
        [{ entityType := "e", entityID := "1", model := "m", reason := "r",
           attempts := 0, nextRunAt := 0, startedAt := none },
         { entityType := "e", entityID := "2", model := "m", reason := "r",
           attempts := 0, nextRunAt := 0, startedAt := none }] []) 0 0 1) 1 5,
        taskIdent x ≠ taskIdent y)) :=
  ⟨by decide,
    fetchReady_no_double_lease (LeaseState.mk
        [{ entityType := "e", entityID := "1", model := "m", reason := "r",
           attempts := 0, nextRunAt := 0, startedAt := none },
         { entityType := "e", entityID := "2", model := "m", reason := "r",
           attempts := 0, nextRunAt := 0, startedAt := none }] [])
      0 1 0 1 5 (by decide)⟩

/-! ## C3: the worker outcome classification is total and exhaustive -/

theorem handleTaskResult_some_ne (cfg : WorkerOptions) (j attempts0 : Int)
    (e : ProviderError) (hne : e ≠ .entityNotFound) :
    handleTaskResult cfg j attempts0 (some e) =
      if attempts0 + 1 ≥ cfg.maxAttempts then .deadLetter
      else if !isRetryable e then .deadLetter
      else .fail (addJitter j (expBackoff cfg.backoffBase (attempts0 + 1) cfg.backoffMax)) := by
  cases e with
  | entityNotFound => exact absurd rfl hne
  | apiError s => rfl
  | requestError s => rfl
  | other => rfl

/-- **C3.** For every processed item, `handleTaskResult` classifies: the
outcome is `Complete` iff the item succeeded or hit "entity not found"; the
outcome is `Fail` — with the jittered exponential backoff for this attempt
number `attempts0 + 1` — iff the error is transient (`isRetryable`) and the
attempt number is below `maxAttempts`; the outcome is `DeadLetter` iff the
error is permanent or the attempt cap is reached; and the outcome is always
exactly one of these three, so no item is silently dropped. -/
theorem handleTaskResult_classification (cfg : WorkerOptions) (j attempts0 : Int)
    (err : Option ProviderError) :
    (handleTaskResult cfg j attempts0 err = .complete ↔
      (err = none ∨ err = some .entityNotFound)) ∧
    (handleTaskResult cfg j attempts0 err =
        .fail (addJitter j (expBackoff cfg.backoffBase (attempts0 + 1) cfg.backoffMax)) ↔
      (∃ e, err = some e ∧ e ≠ .entityNotFound ∧ isRetryable e = true ∧
        attempts0 + 1 < cfg.maxAttempts)) ∧
    (handleTaskResult cfg j attempts0 err = .deadLetter ↔
      (∃ e, err = some e ∧ e ≠ .entityNotFound ∧
        (isRetryable e = false ∨ cfg.maxAttempts ≤ attempts0 + 1))) ∧
    (handleTaskResult cfg j attempts0 err = .complete ∨
      handleTaskResult cfg j attempts0 err =
        .fail (addJitter j (expBackoff cfg.backoffBase (attempts0 + 1) cfg.backoffMax)) ∨
      handleTaskResult cfg j attempts0 err = .deadLetter) := by
  cases err with
  | none =>
      refine ⟨by simp [handleTaskResult], ?_, ?_, Or.inl (by simp [handleTaskResult])⟩
      · simp [handleTaskResult]
      · simp [handleTaskResult]
  | some e =>
      by_cases hne : e = ProviderError.entityNotFound
      · subst hne
        refine ⟨by simp [handleTaskResult], ?_, ?_,
          Or.inl (by simp [handleTaskResult])⟩
        · constructor
          · intro h
            simp [handleTaskResult] at h
          · rintro ⟨e', he', hne', _⟩
            cases he'
            exact absurd rfl hne'
        · constructor
          · intro h
            simp [handleTaskResult] at h
          · rintro ⟨e', he', hne', _⟩
            cases he'
            exact absurd rfl hne'
      · rw [handleTaskResult_some_ne cfg j attempts0 e hne]
        by_cases hA : attempts0 + 1 ≥ cfg.maxAttempts
        · rw [if_pos hA]
          refine ⟨by simp [hne], ?_, ?_, Or.inr (Or.inr rfl)⟩
          · constructor
            · intro h
              cases h
            · rintro ⟨e', he', -, -, hlt⟩
              omega
          · constructor
            · intro _
              exact ⟨e, rfl, hne, Or.inr hA⟩
            · intro _
              rfl
        · rw [if_neg hA]
          by_cases hR : isRetryable e = true
          · rw [if_neg (by simp [hR])]
            refine ⟨by simp [hne], ?_, ?_, Or.inr (Or.inl rfl)⟩
            · constructor
              · intro _
                exact ⟨e, rfl, hne, hR, by omega⟩
              · intro _
                rfl
            · constructor
              · intro h
                cases h
              · rintro ⟨e', he', -, hperm⟩
                have : e' = e := by
                  cases he'
                  rfl
                subst this
                rcases hperm with h | h
                · rw [hR] at h
                  cases h
                · omega
          · have hR' : isRetryable e = false := Bool.eq_false_iff.mpr hR
            rw [if_pos (by simp [hR'])]
            refine ⟨by simp [hne], ?_, ?_, Or.inr (Or.inr rfl)⟩
            · constructor
              · intro h
                cases h
              · rintro ⟨e', he', -, hret, -⟩
                have : e' = e := by
                  cases he'
                  rfl
                subst this
                rw [hR'] at hret
                cases hret
            · constructor
              · intro _
                exact ⟨e, rfl, hne, Or.inl hR'⟩
              · intro _
                rfl

/-! ## C9: the retry backoff is monotone and jitter-bounded -/

theorem addJitter_ge_self (j d : Int) (hj : 0 ≤ j) :
    d ≤ addJitter j d := by
  unfold addJitter
  split
  · exact le_refl d
  · linarith

/-- **C9.** For attempt numbers `1 ≤ n < m` with `m` still below the cap
(`base·2^(m-1) ≤ max`), and any jitter values the rng can produce
(`0 ≤ jn ≤ d_n/4`, `0 ≤ jm`): the uncapped backoff is non-decreasing, the
jittered delay is non-decreasing, and the attempt-`n` delay lies in
`[base·2^(n-1), 1.25·base·2^(n-1)]` (stated integrally as
`4·delay ≤ 5·base·2^(n-1)`). -/
theorem backoff_monotone_and_bounded (base maxB n m jn jm : Int)
    (hbase : 0 ≤ base) (hn : 1 ≤ n) (hnm : n < m)
    (hcap : base * 2 ^ (m - 1).toNat ≤ maxB)
    (hjn0 : 0 ≤ jn) (hjn : 4 * jn ≤ base * 2 ^ (n - 1).toNat)
    (hjm0 : 0 ≤ jm) :
    expBackoff base n maxB ≤ expBackoff base m maxB ∧
    addJitter jn (expBackoff base n maxB) ≤ addJitter jm (expBackoff base m maxB) ∧
    base * 2 ^ (n - 1).toNat ≤ addJitter jn (expBackoff base n maxB) ∧
    4 * addJitter jn (expBackoff base n maxB) ≤ 5 * (base * 2 ^ (n - 1).toNat) := by
  have hp0 : (2 : Int) ^ (n - 1).toNat ≤ 2 ^ (m - 1).toNat :=
    pow_le_pow_right₀ (by norm_num) (by omega)
  have hp1 : (2 : Int) ^ ((n - 1).toNat + 1) ≤ 2 ^ (m - 1).toNat :=
    pow_le_pow_right₀ (by norm_num) (by omega)
  have hdnm : base * 2 ^ (n - 1).toNat ≤ base * 2 ^ (m - 1).toNat :=
    mul_le_mul_of_nonneg_left hp0 hbase
  have h2dn : 2 * (base * 2 ^ (n - 1).toNat) ≤ base * 2 ^ (m - 1).toNat := by
    calc 2 * (base * 2 ^ (n - 1).toNat) = base * (2 ^ (n - 1).toNat * 2) := by ring
      _ = base * 2 ^ ((n - 1).toNat + 1) := by rw [pow_succ]
      _ ≤ base * 2 ^ (m - 1).toNat := mul_le_mul_of_nonneg_left hp1 hbase
  have hdn0 : 0 ≤ base * 2 ^ (n - 1).toNat :=
    mul_nonneg hbase (pow_nonneg (by norm_num) _)
  have hdm0 : 0 ≤ base * 2 ^ (m - 1).toNat :=
    mul_nonneg hbase (pow_nonneg (by norm_num) _)
  have hEn : expBackoff base n maxB = base * 2 ^ (n - 1).toNat := by
    simp only [expBackoff]
    rw [if_neg (show ¬ n < 1 by omega)]
    exact if_neg (not_lt.mpr (le_trans hdnm hcap))
  have hEm : expBackoff base m maxB = base * 2 ^ (m - 1).toNat := by
    simp only [expBackoff]
    rw [if_neg (show ¬ m < 1 by omega)]
    exact if_neg (not_lt.mpr hcap)
  rw [hEn, hEm]
  refine ⟨hdnm, ?_, ?_, ?_⟩
  · by_cases hpos : base * 2 ^ (n - 1).toNat ≤ 0
    · have hz : base * 2 ^ (n - 1).toNat = 0 := le_antisymm hpos hdn0
      rw [hz]
      have h1 : addJitter jn 0 = 0 := by
        unfold addJitter
        rw [if_pos (le_refl 0)]
      rw [h1]
      exact le_trans hdm0 (addJitter_ge_self jm _ hjm0)
    · push_neg at hpos
      have hdmpos : 0 < base * 2 ^ (m - 1).toNat := lt_of_lt_of_le hpos hdnm
      unfold addJitter
      rw [if_neg (not_le.mpr hpos), if_neg (not_le.mpr hdmpos)]
      linarith
  · exact addJitter_ge_self jn _ hjn0
  · unfold addJitter
    split
    · linarith
    · linarith

/-- Witness for `backoff_monotone_and_bounded`: base 5, cap 1000, attempts
2 and 3, jitters 2 and 0. -/
theorem backoff_monotone_and_bounded_witness :
    ((0 : Int) ≤ 5 ∧ (1 : Int) ≤ 2 ∧ (2 : Int) < 3 ∧
      (5 : Int) * 2 ^ ((3 : Int) - 1).toNat ≤ 1000 ∧ (0 : Int) ≤ 2 ∧
      (4 : Int) * 2 ≤ 5 * 2 ^ ((2 : Int) - 1).toNat ∧ (0 : Int) ≤ 0) ∧
    (expBackoff 5 2 1000 ≤ expBackoff 5 3 1000 ∧
      addJitter 2 (expBackoff 5 2 1000) ≤ addJitter 0 (expBackoff 5 3 1000) ∧
      (5 : Int) * 2 ^ ((2 : Int) - 1).toNat ≤ addJitter 2 (expBackoff 5 2 1000) ∧
      4 * addJitter 2 (expBackoff 5 2 1000) ≤ 5 * ((5 : Int) * 2 ^ ((2 : Int) - 1).toNat)) :=
  ⟨⟨by decide, by decide, by decide, by decide, by decide, by decide, by decide⟩,
    backoff_monotone_and_bounded 5 1000 2 3 2 0 (by decide) (by decide)
      (by decide) (by decide) (by decide) (by decide) (by decide)⟩

/-! ## C6: two-stage retrieval — subset, candidate count, similarity floor -/

/-- A three-row table for the C6 counterexample: all rows eligible for
model `"m"`. -/
def c6rows : List VecRow :=
  [{ entityType := "e", entityID := "1", model := "m", hasEmbedding := true,
     approxDist := 0, sim := 1 },
   { entityType := "e", entityID := "2", model := "m", hasEmbedding := true,
     approxDist := 1, sim := 1 },
   { entityType := "e", entityID := "3", model := "m", hasEmbedding := true,
     approxDist := 2, sim := 1 }]

/-- The C6 counterexample query: `limit = 1`, `OversampleFactor = 1`. -/
def c6query : VecQuery :=
  { schema := "s", model := "m", qvecLen := 4, limit := 1, entityTypes := [],
    excludeIDs := [], minSimilarity := 0, oversampleFactor := 1 }

/-- **C6 counterexample.** With `limit = 1` and `oversampleFactor = 1`
against a table of three eligible rows, the stage-1 candidate count is 3,
not `limit × oversampleFactor = 1`: the code coerces any factor `≤ 1` to 5,
and the candidate count is really `min(#eligible, limit × 5)`, not exactly
`limit × oversampleFactor`. -/
theorem twoStage_count_cex :
    (twoStageCandidates c6rows c6query).length = 3 ∧
    c6query.limit * c6query.oversampleFactor = 1 ∧
    ((twoStageCandidates c6rows c6query).length : Int) ≠
      c6query.limit * c6query.oversampleFactor := by
  refine ⟨?_, by decide, ?_⟩ <;> decide

/-- **C6 (amended).** For every two-stage search with a valid schema/model,
`limit > 0` and a non-empty query vector: the output is a subset of the
stage-1 candidate set; the stage-1 candidate count equals
`min(limit × effectiveOversample(factor), #eligible rows)` where the
effective factor is 5 whenever the configured factor is `≤ 1`; and every
candidate below the similarity floor is excluded, the floor being applied
unconditionally as `similarity ≥ MinSimilarity` even when
`MinSimilarity = 0`. -/
theorem searchVectors_twoStage_spec (rows : List VecRow) (q : VecQuery)
    (hschema : isBlank q.schema = false) (hmodel : isBlank q.model = false)
    (hlimit : 0 < q.limit) (hqv : q.qvecLen ≠ 0) :
    ∃ out, searchVectors rows q true = .ok out ∧
      (∀ h ∈ out, ∃ r ∈ twoStageCandidates rows q, toHit r = h) ∧
      (twoStageCandidates rows q).length =
        min (q.limit * effectiveOversample q.oversampleFactor).toNat
          (rows.filter (eligibleRow q)).length ∧
      (∀ h ∈ out, q.minSimilarity ≤ h.similarity) := by
  unfold searchVectors
  rw [hschema, hmodel]
  simp only [Bool.false_eq_true, if_false]
  rw [if_neg (by omega : ¬ q.limit ≤ 0),
    if_neg (by simp [beq_iff_eq, hqv] : ¬ (q.qvecLen == 0) = true)]
  rw [if_pos trivial]
  refine ⟨_, rfl, ?_, ?_, ?_⟩
  · intro h hh
    rcases List.mem_map.mp hh with ⟨r, hr, hrh⟩
    have hr' := (List.mem_filter.mp hr).1
    have hr'' := List.mem_of_mem_take hr'
    rw [mem_sortByLe] at hr''
    exact ⟨r, (List.mem_filter.mp hr'').1, hrh⟩
  · unfold twoStageCandidates
    rw [List.length_take, length_sortByLe]
  · intro h hh
    rcases List.mem_map.mp hh with ⟨r, hr, hrh⟩
    have hr' := (List.mem_filter.mp hr).1
    have hr'' := List.mem_of_mem_take hr'
    rw [mem_sortByLe] at hr''
    have hfloor := (List.mem_filter.mp hr'').2
    have : q.minSimilarity ≤ r.sim := of_decide_eq_true hfloor
    rw [← hrh]
    exact this

/-- Witness for `searchVectors_twoStage_spec`: one eligible row with a
*negative* exact similarity and `MinSimilarity = 0` — the unconditional
floor applies even at 0. -/
theorem searchVectors_twoStage_spec_witness :
    (isBlank (VecQuery.schema
        { schema := "s", model := "m", qvecLen := 4, limit := 1,
          entityTypes := [], excludeIDs := [], minSimilarity := 0,
          oversampleFactor := 0 }) = false ∧
      isBlank (VecQuery.model
        { schema := "s", model := "m", qvecLen := 4, limit := 1,
          entityTypes := [], excludeIDs := [], minSimilarity := 0,
          oversampleFactor := 0 }) = false ∧
      (0 : Int) < 1 ∧ (4 : Nat) ≠ 0) ∧
    (∃ out, searchVectors
        [{ entityType := "e", entityID := "1", model := "m",
           hasEmbedding := true, approxDist := 0, sim := -1 }]
        { schema := "s", model := "m", qvecLen := 4, limit := 1,
          entityTypes := [], excludeIDs := [], minSimilarity := 0,
          oversampleFactor := 0 } true = .ok out ∧
      (∀ h ∈ out, ∃ r ∈ twoStageCandidates
        [{ entityType := "e", entityID := "1", model := "m",
           hasEmbedding := true, approxDist := 0, sim := -1 }]
        { schema := "s", model := "m", qvecLen := 4, limit := 1,
          entityTypes := [], excludeIDs := [], minSimilarity := 0,
          oversampleFactor := 0 }, toHit r = h) ∧
      (twoStageCandidates
        [{ entityType := "e", entityID := "1", model := "m",
           hasEmbedding := true, approxDist := 0, sim := -1 }]
        { schema := "s", model := "m", qvecLen := 4, limit := 1,
          entityTypes := [], excludeIDs := [], minSimilarity := 0,
          oversampleFactor := 0 }).length =
        min ((1 : Int) * effectiveOversample 0).toNat
          ([{ entityType := "e", entityID := "1", model := "m",
              hasEmbedding := true, approxDist := 0, sim := (-1 : ℚ) }].filter
            (eligibleRow
              { schema := "s", model := "m", qvecLen := 4, limit := 1,
                entityTypes := [], excludeIDs := [], minSimilarity := 0,
                oversampleFactor := 0 })).length ∧
      (∀ h ∈ out, (0 : ℚ) ≤ h.similarity)) :=
  ⟨⟨by decide, by decide, by decide, by decide⟩,
    searchVectors_twoStage_spec
      [{ entityType := "e", entityID := "1", model := "m",
         hasEmbedding := true, approxDist := 0, sim := -1 }]
      { schema := "s", model := "m", qvecLen := 4, limit := 1,
        entityTypes := [], excludeIDs := [], minSimilarity := 0,
        oversampleFactor := 0 }
      (by decide) (by decide) (by decide) (by decide)⟩

/-! ## C5: RRF fusion — scores, ordering, and the limits of its determinism -/

theorem keyString_lastWith (lists : List (List RRFKey)) (ks : String)
    (hks : ks ∈ allKeyStrings lists) : keyString (lastWith lists ks) = ks := by
  unfold allKeyStrings at hks
  rw [List.mem_dedup] at hks
  rcases List.mem_map.mp hks with ⟨it, hit, rfl⟩
  unfold lastWith
  have hmem : it ∈ lists.flatten.filter (fun x => keyString x == keyString it) :=
    List.mem_filter.mpr ⟨hit, by simp⟩
  cases hl : (lists.flatten.filter (fun x => keyString x == keyString it)).getLast? with
  | none =>
      rw [List.getLast?_eq_none_iff] at hl
      rw [hl] at hmem
      cases hmem
  | some a =>
      have ha : a ∈ lists.flatten.filter (fun x => keyString x == keyString it) :=
        List.mem_of_mem_getLast? hl
      have hpred := (List.mem_filter.mp ha).2
      have : keyString a = keyString it := by simpa using hpred
      simp [hl, this]

/-- The two single-item input lists of the C5 analysis: same trimmed
`entityType`/`entityID`, different `language`/`model`. -/
def c5lists : List (List RRFKey) :=
  [[{ entityType := "t", entityID := "a", language := "l1", model := "m1" }],
   [{ entityType := "t", entityID := "a", language := "l2", model := "m2" }]]

/-- Options with default K and weight 61 per list, making both fused scores
exactly 1. -/
def c5opts : RRFOptions := { k := 0, weights := [61, 61] }

/-- The hit for the first C5 key. -/
def c5hit1 : RRFHit :=
  { key := { entityType := "t", entityID := "a", language := "l1", model := "m1" },
    score := 1 }

/-- The hit for the second C5 key. -/
def c5hit2 : RRFHit :=
  { key := { entityType := "t", entityID := "a", language := "l2", model := "m2" },
    score := 1 }

theorem c5canonicalHits_eq : canonicalHits c5lists c5opts = [c5hit1, c5hit2] := by
  have hks : allKeyStrings c5lists =
      [keyString { entityType := "t", entityID := "a", language := "l1", model := "m1" },
       keyString { entityType := "t", entityID := "a", language := "l2", model := "m2" }] := by
    decide
  have hb11 : (keyString { entityType := "t", entityID := "a", language := "l1", model := "m1" } ==
      keyString { entityType := "t", entityID := "a", language := "l1", model := "m1" }) = true := by
    decide
  have hb21 : (keyString { entityType := "t", entityID := "a", language := "l2", model := "m2" } ==
      keyString { entityType := "t", entityID := "a", language := "l1", model := "m1" }) = false := by
    decide
  have hb12 : (keyString { entityType := "t", entityID := "a", language := "l1", model := "m1" } ==
      keyString { entityType := "t", entityID := "a", language := "l2", model := "m2" }) = false := by
    decide
  have hb22 : (keyString { entityType := "t", entityID := "a", language := "l2", model := "m2" } ==
      keyString { entityType := "t", entityID := "a", language := "l2", model := "m2" }) = true := by
    decide
  have hl1 : lastWith c5lists
      (keyString { entityType := "t", entityID := "a", language := "l1", model := "m1" }) =
      { entityType := "t", entityID := "a", language := "l1", model := "m1" } := by
    decide
  have hl2 : lastWith c5lists
      (keyString { entityType := "t", entityID := "a", language := "l2", model := "m2" }) =
      { entityType := "t", entityID := "a", language := "l2", model := "m2" } := by
    decide
  have hw0 : effectiveWeight c5opts.weights 0 = 61 := by
    simp [effectiveWeight, c5opts]
  have hw1 : effectiveWeight c5opts.weights 1 = 61 := by
    simp [effectiveWeight, c5opts]
  have hs1 : fuseScore (effectiveK c5opts.k) c5opts.weights
      (keyString { entityType := "t", entityID := "a", language := "l1", model := "m1" })
      c5lists 0 = 1 := by
    show fuseScore 60 c5opts.weights _ c5lists 0 = 1
    simp only [c5lists, fuseScore, listContrib, hb11, hb21, hw0, hw1,
      Bool.true_eq_false, if_true, if_false]
    norm_num
  have hs2 : fuseScore (effectiveK c5opts.k) c5opts.weights
      (keyString { entityType := "t", entityID := "a", language := "l2", model := "m2" })
      c5lists 0 = 1 := by
    show fuseScore 60 c5opts.weights _ c5lists 0 = 1
    simp only [c5lists, fuseScore, listContrib, hb22, hb12, hw0, hw1,
      Bool.true_eq_false, if_true, if_false]
    norm_num
  unfold canonicalHits
  rw [hks]
  simp only [List.map]
  rw [hl1, hl2, hs1, hs2]
  rfl

/-- **C5 counterexample.** On the two lists of `c5lists` the two fused hits
tie on score, `entityType` and `entityID` but have distinct identities
(different `language`/`model`).  Both orders of the pair are valid FuseRRF
outputs (the comparator orders them in *neither* direction, and Go sorts a
nondeterministically-ordered map materialization with an unstable sort), so
ties are not broken by full-identity ascent and the output order is not
deterministic. -/
theorem fuseRRF_tiebreak_cex :
    ValidFuse c5lists c5opts [c5hit1, c5hit2] ∧
    ValidFuse c5lists c5opts [c5hit2, c5hit1] ∧
    ([c5hit1, c5hit2] : List RRFHit) ≠ [c5hit2, c5hit1] ∧
    c5hit1.key ≠ c5hit2.key ∧
    rrfLess c5hit1 c5hit2 = false ∧ rrfLess c5hit2 c5hit1 = false := by
  refine ⟨⟨?_, by decide⟩, ⟨?_, by decide⟩, by decide, by decide, by decide, by decide⟩
  · rw [c5canonicalHits_eq]
  · rw [c5canonicalHits_eq]
    exact List.Perm.swap c5hit1 c5hit2 []

/-- **C5 (amended).** Every possible `FuseRRF` output assigns each emitted
hit the score `Σ_lists weight_l / (K + rank_l)` (1-based ranks, `K`
defaulting to 60, weights defaulting to 1.0, absent lists contributing 0);
it is sorted by score descending with ties broken by `entityType` then
`entityID` ascending only (hits additionally tied on those may appear in
either order, so the output is deterministic only up to such ties); and the
emitted key strings are exactly the distinct key strings of the input
lists. -/
theorem fuseRRF_spec (lists : List (List RRFKey)) (opts : RRFOptions)
    (out : List RRFHit) (hvalid : ValidFuse lists opts out) :
    (∀ h ∈ out, h.score =
      fuseScore (effectiveK opts.k) opts.weights (keyString h.key) lists 0) ∧
    out.Pairwise (fun a b => rrfLess b a = false) ∧
    (out.map (fun h => keyString h.key)).Perm (allKeyStrings lists) := by
  obtain ⟨hperm, hpair⟩ := hvalid
  refine ⟨?_, hpair, ?_⟩
  · intro h hh
    have hcan : h ∈ canonicalHits lists opts := hperm.mem_iff.mp hh
    unfold canonicalHits at hcan
    rcases List.mem_map.mp hcan with ⟨ks, hks, hh'⟩
    have hkey : h.key = lastWith lists ks := by rw [← hh']
    have hscore : h.score =
        fuseScore (effectiveK opts.k) opts.weights ks lists 0 := by rw [← hh']
    rw [hscore, hkey, keyString_lastWith lists ks hks]
  · have h1 : (out.map (fun h => keyString h.key)).Perm
        ((canonicalHits lists opts).map (fun h => keyString h.key)) :=
      hperm.map _
    have h2 : (canonicalHits lists opts).map (fun h => keyString h.key) =
        allKeyStrings lists := by
      unfold canonicalHits
      rw [List.map_map]
      calc (allKeyStrings lists).map _
          = (allKeyStrings lists).map id := by
            apply List.map_congr_left
            intro ks hks
            exact keyString_lastWith lists ks hks
        _ = allKeyStrings lists := List.map_id _
    rw [h2] at h1
    exact h1

/-- Witness for `fuseRRF_spec` at the concrete `c5lists` input. -/
theorem fuseRRF_spec_witness :
    ValidFuse c5lists c5opts [c5hit1, c5hit2] ∧
    ((∀ h ∈ [c5hit1, c5hit2], h.score =
        fuseScore (effectiveK c5opts.k) c5opts.weights (keyString h.key) c5lists 0) ∧
      ([c5hit1, c5hit2] : List RRFHit).Pairwise (fun a b => rrfLess b a = false) ∧
      (([c5hit1, c5hit2] : List RRFHit).map (fun h => keyString h.key)).Perm
        (allKeyStrings c5lists)) :=
  ⟨⟨by rw [c5canonicalHits_eq], by decide⟩,
    fuseRRF_spec c5lists c5opts [c5hit1, c5hit2]
      ⟨by rw [c5canonicalHits_eq], by decide⟩⟩

/-! ## C7: two-page backfill — done after two ticks, exact enqueue count -/

theorem length_filter_not_add (p : String → Bool) (l : List String) :
    (l.filter (fun x => !p x)).length + (l.filter p).length = l.length := by
  induction l with
  | nil => rfl
  | cons a as ih =>
      cases h : p a <;> simp [List.filter_cons, h] <;> omega

theorem filterMissing_of_nonblank (hasVec : String → Bool) (ids : List String)
    (hblank : ∀ id ∈ ids, isBlank id = false) :
    filterMissingEmbeddings hasVec ids = ids.filter (fun id => !hasVec id) := by
  unfold filterMissingEmbeddings
  apply List.filter_eq_self.mpr
  intro x hx
  have hx' := List.mem_filter.mp hx
  rw [hblank x hx'.1]
  rfl

/-- **C7.** For a backfill partition whose pager yields a first page at the
initial cursor and then, at the advanced cursor, a second page flagged as
exhausted: after two ticks the partition state is `done`; a third tick
enqueues nothing and leaves the state unchanged; no already-embedded id is
ever enqueued; and the total number of enqueued identities is the sum of
the page sizes minus the number of page ids that already had a stored
vector for this `(model, entity_type, language)`. -/
theorem backfill_two_pages (hasVec : String → Bool)
    (pager : String → List String × String × Bool)
    (ids1 ids2 : List String) (c1 c2 : String)
    (hp0 : pager "" = (ids1, c1, false))
    (hp1 : pager c1 = (ids2, c2, true))
    (hblank1 : ∀ id ∈ ids1, isBlank id = false)
    (hblank2 : ∀ id ∈ ids2, isBlank id = false) :
    (vecBackfillTick hasVec pager
      (some (vecBackfillTick hasVec pager none).1)).1.state = "done" ∧
    (vecBackfillTick hasVec pager
      (some (vecBackfillTick hasVec pager
        (some (vecBackfillTick hasVec pager none).1)).1)).2 = [] ∧
    (vecBackfillTick hasVec pager
      (some (vecBackfillTick hasVec pager
        (some (vecBackfillTick hasVec pager none).1)).1)).1 =
      (vecBackfillTick hasVec pager
        (some (vecBackfillTick hasVec pager none).1)).1 ∧
    (∀ id ∈ (vecBackfillTick hasVec pager none).2, hasVec id = false) ∧
    (∀ id ∈ (vecBackfillTick hasVec pager
      (some (vecBackfillTick hasVec pager none).1)).2, hasVec id = false) ∧
    (vecBackfillTick hasVec pager none).2.length +
      (vecBackfillTick hasVec pager
        (some (vecBackfillTick hasVec pager none).1)).2.length =
      (ids1.length + ids2.length) -
        ((ids1 ++ ids2).filter (fun id => hasVec id)).length := by
  have hrun : (("running" : String) == "done") = false := by decide
  have hdone : (("done" : String) == "done") = true := by decide
  have ht1 : vecBackfillTick hasVec pager none =
      ({ cursor := c1, state := "running", lastError := none },
        filterMissingEmbeddings hasVec ids1) := by
    unfold vecBackfillTick ensureVecBackfillState
    simp only [Option.getD_none, hrun, Bool.false_eq_true, if_false, hp0]
  have ht2 : vecBackfillTick hasVec pager
      (some ({ cursor := c1, state := "running", lastError := none } :
        BackfillPartitionState)) =
      ({ cursor := c2, state := "done", lastError := none },
        filterMissingEmbeddings hasVec ids2) := by
    unfold vecBackfillTick ensureVecBackfillState
    simp only [Option.getD_some, hrun, Bool.false_eq_true, if_false, hp1]
    rfl
  have ht3 : vecBackfillTick hasVec pager
      (some ({ cursor := c2, state := "done", lastError := none } :
        BackfillPartitionState)) =
      ({ cursor := c2, state := "done", lastError := none }, []) := by
    unfold vecBackfillTick ensureVecBackfillState
    simp only [Option.getD_some, hdone, if_true]
  rw [ht1]
  simp only
  rw [ht2]
  simp only
  rw [ht3]
  have hm1 := filterMissing_of_nonblank hasVec ids1 hblank1
  have hm2 := filterMissing_of_nonblank hasVec ids2 hblank2
  refine ⟨by trivial, by trivial, by trivial, ?_, ?_, ?_⟩
  · intro id hid
    rw [hm1] at hid
    have := (List.mem_filter.mp hid).2
    simpa using this
  · intro id hid
    rw [hm2] at hid
    have := (List.mem_filter.mp hid).2
    simpa using this
  · rw [hm1, hm2]
    have hadd1 := length_filter_not_add hasVec ids1
    have hadd2 := length_filter_not_add hasVec ids2
    rw [List.filter_append, List.length_append]
    have heta : (fun id => hasVec id) = hasVec := rfl
    rw [heta]
    omega

/-- Witness for `backfill_two_pages`: pages `["a","v"]` then `["b"]`, where
only `"v"` is already embedded — 2 of the 3 ids get enqueued. -/
theorem backfill_two_pages_witness :
    ((fun c : String => if c == "" then ((["a", "v"] : List String), ("c1" : String), false)
        else if c == "c1" then (["b"], "c2", true) else ([], "x", true)) "" =
      (["a", "v"], "c1", false) ∧
     (fun c : String => if c == "" then ((["a", "v"] : List String), ("c1" : String), false)
        else if c == "c1" then (["b"], "c2", true) else ([], "x", true)) "c1" =
      (["b"], "c2", true) ∧
     (∀ id ∈ (["a", "v"] : List String), isBlank id = false) ∧
     (∀ id ∈ (["b"] : List String), isBlank id = false)) ∧
    ((vecBackfillTick (fun id => id == "v")
        (fun c => if c == "" then (["a", "v"], "c1", false)
          else if c == "c1" then (["b"], "c2", true) else ([], "x", true))
        (some (vecBackfillTick (fun id => id == "v")
          (fun c => if c == "" then (["a", "v"], "c1", false)
            else if c == "c1" then (["b"], "c2", true) else ([], "x", true))
          none).1)).1.state = "done" ∧
      (vecBackfillTick (fun id => id == "v")
        (fun c => if c == "" then (["a", "v"], "c1", false)
          else if c == "c1" then (["b"], "c2", true) else ([], "x", true))
        (some (vecBackfillTick (fun id => id == "v")
          (fun c => if c == "" then (["a", "v"], "c1", false)
            else if c == "c1" then (["b"], "c2", true) else ([], "x", true))
          (some (vecBackfillTick (fun id => id == "v")
            (fun c => if c == "" then (["a", "v"], "c1", false)
              else if c == "c1" then (["b"], "c2", true) else ([], "x", true))
            none).1)).1)).2 = [] ∧
      (vecBackfillTick (fun id => id == "v")
        (fun c => if c == "" then (["a", "v"], "c1", false)
          else if c == "c1" then (["b"], "c2", true) else ([], "x", true))
        (some (vecBackfillTick (fun id => id == "v")
          (fun c => if c == "" then (["a", "v"], "c1", false)
            else if c == "c1" then (["b"], "c2", true) else ([], "x", true))
          (some (vecBackfillTick (fun id => id == "v")
            (fun c => if c == "" then (["a", "v"], "c1", false)
              else if c == "c1" then (["b"], "c2", true) else ([], "x", true))
            none).1)).1)).1 =
        (vecBackfillTick (fun id => id == "v")
          (fun c => if c == "" then (["a", "v"], "c1", false)
            else if c == "c1" then (["b"], "c2", true) else ([], "x", true))
          (some (vecBackfillTick (fun id => id == "v")
            (fun c => if c == "" then (["a", "v"], "c1", false)
              else if c == "c1" then (["b"], "c2", true) else ([], "x", true))
            none).1)).1 ∧
      (∀ id ∈ (vecBackfillTick (fun id => id == "v")
        (fun c => if c == "" then (["a", "v"], "c1", false)
          else if c == "c1" then (["b"], "c2", true) else ([], "x", true))
        none).2, (id == "v") = false) ∧
      (∀ id ∈ (vecBackfillTick (fun id => id == "v")
        (fun c => if c == "" then (["a", "v"], "c1", false)
          else if c == "c1" then (["b"], "c2", true) else ([], "x", true))
        (some (vecBackfillTick (fun id => id == "v")
          (fun c => if c == "" then (["a", "v"], "c1", false)
            else if c == "c1" then (["b"], "c2", true) else ([], "x", true))
          none).1)).2, (id == "v") = false) ∧
      (vecBackfillTick (fun id => id == "v")
        (fun c => if c == "" then (["a", "v"], "c1", false)
          else if c == "c1" then (["b"], "c2", true) else ([], "x", true))
        none).2.length +
        (vecBackfillTick (fun id => id == "v")
          (fun c => if c == "" then (["a", "v"], "c1", false)
            else if c == "c1" then (["b"], "c2", true) else ([], "x", true))
          (some (vecBackfillTick (fun id => id == "v")
            (fun c => if c == "" then (["a", "v"], "c1", false)
              else if c == "c1" then (["b"], "c2", true) else ([], "x", true))
            none).1)).2.length =
        ((["a", "v"] : List String).length + (["b"] : List String).length) -
          (((["a", "v"] : List String) ++ ["b"]).filter
            (fun id => id == "v")).length) :=
  ⟨⟨by decide, by decide, by decide, by decide⟩,
    backfill_two_pages (fun id => id == "v")
      (fun c => if c == "" then (["a", "v"], "c1", false)
        else if c == "c1" then (["b"], "c2", true) else ([], "x", true))
      ["a", "v"] ["b"] "c1" "c2" (by decide) (by decide) (by decide) (by decide)⟩

/-! ## C8: dirty deletion cascade and idempotent re-run -/

/-- **C8.** For a state whose dirty queue holds one non-blank marker with
`is_deleted = true`, one reconciler pass deletes the identity's lexical
document, all its stored vectors across all models, and all its queued
tasks across all models, and clears the marker; the trace shows the marker
deletion happening only after those three side effects; and re-running the
pass on the resulting state changes nothing and emits no events.  This
holds for every lexical-upsert collaborator, tracked-type configuration and
active model set. -/
theorem dirty_deletion_cascade
    (upsertLex : SkState → String → String → List String → SkState)
    (lexicalSet semanticSet activeModels : List String)
    (limit : Int) (s : SkState) (m : DirtyRow)
    (hlimit : 1 ≤ limit)
    (hdirty : s.dirty = [m])
    (hdel : m.isDeleted = true)
    (hblank : dirtyBlankSkip m = false) :
    ∃ s', processDirtyOnce upsertLex lexicalSet semanticSet activeModels limit s =
        (s', [DirtyEvent.delDoc m.entityType m.entityID m.language,
              DirtyEvent.delVecs m.entityType m.entityID m.language,
              DirtyEvent.delTasks m.entityType m.entityID m.language,
              DirtyEvent.delMarker m.entityType m.entityID m.language]) ∧
      (∀ d ∈ s'.docs, ¬(d.entityType = m.entityType ∧ d.entityID = m.entityID ∧
        d.language = m.language)) ∧
      (∀ v ∈ s'.vecs, ¬(v.entityType = m.entityType ∧ v.entityID = m.entityID ∧
        v.language = m.language)) ∧
      (∀ t ∈ s'.tasks, ¬(t.entityType = m.entityType ∧ t.entityID = m.entityID ∧
        t.language = m.language)) ∧
      s'.dirty = [] ∧
      processDirtyOnce upsertLex lexicalSet semanticSet activeModels limit s' =
        (s', []) := by
  have hto : 1 ≤ limit.toNat := by omega
  have htake : ([m] : List DirtyRow).take limit.toNat = [m] :=
    List.take_of_length_le (by simpa using hto)
  have hbatch : (s.dirty.take limit.toNat).filter (fun r => !dirtyBlankSkip r) = [m] := by
    rw [hdirty, htake]
    simp [hblank]
  have hgl : groupPairs [m] lexicalSet = [] := by
    unfold groupPairs
    simp [hdel]
  have hgs : groupPairs [m] semanticSet = [] := by
    unfold groupPairs
    simp [hdel]
  refine ⟨SkState.mk
    (s.docs.filter (fun d =>
      !(d.entityType == m.entityType && d.entityID == m.entityID &&
        d.language == m.language)))
    (s.vecs.filter (fun v =>
      !(v.entityType == m.entityType && v.entityID == m.entityID &&
        v.language == m.language)))
    (s.tasks.filter (fun t =>
      !(t.entityType == m.entityType && t.entityID == m.entityID &&
        t.language == m.language)))
    [], ?_, ?_, ?_, ?_, rfl, ?_⟩
  · simp only [processDirtyOnce]
    rw [if_neg (show ¬ limit ≤ 0 by omega)]
    rw [hbatch]
    rw [show ([m] : List DirtyRow).isEmpty = false from rfl]
    simp only [Bool.false_eq_true, if_false]
    simp only [List.foldl]
    unfold deleteCascade
    rw [if_pos hdel]
    rw [hgl, hgs]
    simp only [List.foldl, List.nil_append, List.map]
    simp only [deleteSearchDocuments, deleteEmbeddingVectorsForEntity,
      deleteAllTasksForEntity, hdirty]
    simp [List.filter]
  · intro d hd
    have := (List.mem_filter.mp hd).2
    simp only [Bool.not_eq_true', Bool.and_eq_false_iff] at this
    rintro ⟨h1, h2, h3⟩
    rcases this with (h | h) | h
    · exact absurd (beq_iff_eq.mpr h1) (Bool.eq_false_iff.mp h)
    · exact absurd (beq_iff_eq.mpr h2) (Bool.eq_false_iff.mp h)
    · exact absurd (beq_iff_eq.mpr h3) (Bool.eq_false_iff.mp h)
  · intro v hv
    have := (List.mem_filter.mp hv).2
    simp only [Bool.not_eq_true', Bool.and_eq_false_iff] at this
    rintro ⟨h1, h2, h3⟩
    rcases this with (h | h) | h
    · exact absurd (beq_iff_eq.mpr h1) (Bool.eq_false_iff.mp h)
    · exact absurd (beq_iff_eq.mpr h2) (Bool.eq_false_iff.mp h)
    · exact absurd (beq_iff_eq.mpr h3) (Bool.eq_false_iff.mp h)
  · intro t ht
    have := (List.mem_filter.mp ht).2
    simp only [Bool.not_eq_true', Bool.and_eq_false_iff] at this
    rintro ⟨h1, h2, h3⟩
    rcases this with (h | h) | h
    · exact absurd (beq_iff_eq.mpr h1) (Bool.eq_false_iff.mp h)
    · exact absurd (beq_iff_eq.mpr h2) (Bool.eq_false_iff.mp h)
    · exact absurd (beq_iff_eq.mpr h3) (Bool.eq_false_iff.mp h)
  · simp only [processDirtyOnce]
    rw [if_neg (show ¬ limit ≤ 0 by omega)]
    simp

/-- Witness for `dirty_deletion_cascade`: a one-marker dirty queue whose
identity owns one document, two vectors (two models) and two tasks. -/
theorem dirty_deletion_cascade_witness :
    ((1 : Int) ≤ 1 ∧
      (SkState.mk [{ entityType := "e", entityID := "1", language := "en", doc := "d" }]
        [{ entityType := "e", entityID := "1", model := "m1", language := "en" },
         { entityType := "e", entityID := "1", model := "m2", language := "en" }]
        [{ entityType := "e", entityID := "1", model := "m1", language := "en", reason := "dirty" },
         { entityType := "e", entityID := "1", model := "m2", language := "en", reason := "dirty" }]
        [{ entityType := "e", entityID := "1", language := "en", isDeleted := true, reason := "gone" }]).dirty =
        [{ entityType := "e", entityID := "1", language := "en", isDeleted := true, reason := "gone" }] ∧
      ({ entityType := "e", entityID := "1", language := "en", isDeleted := true,
         reason := "gone" } : DirtyRow).isDeleted = true ∧
      dirtyBlankSkip ({ entityType := "e", entityID := "1", language := "en",
                        isDeleted := true, reason := "gone" } : DirtyRow) = false) ∧
    (∃ s', processDirtyOnce (fun st _ _ _ => st) ["e"] ["e"] ["m1", "m2"] 1
        (SkState.mk [{ entityType := "e", entityID := "1", language := "en", doc := "d" }]
          [{ entityType := "e", entityID := "1", model := "m1", language := "en" },
           { entityType := "e", entityID := "1", model := "m2", language := "en" }]
          [{ entityType := "e", entityID := "1", model := "m1", language := "en", reason := "dirty" },
           { entityType := "e", entityID := "1", model := "m2", language := "en", reason := "dirty" }]
          [{ entityType := "e", entityID := "1", language := "en", isDeleted := true, reason := "gone" }]) =
        (s', [DirtyEvent.delDoc "e" "1" "en", DirtyEvent.delVecs "e" "1" "en",
              DirtyEvent.delTasks "e" "1" "en", DirtyEvent.delMarker "e" "1" "en"]) ∧
      (∀ d ∈ s'.docs, ¬(d.entityType = "e" ∧ d.entityID = "1" ∧ d.language = "en")) ∧
      (∀ v ∈ s'.vecs, ¬(v.entityType = "e" ∧ v.entityID = "1" ∧ v.language = "en")) ∧
      (∀ t ∈ s'.tasks, ¬(t.entityType = "e" ∧ t.entityID = "1" ∧ t.language = "en")) ∧
      s'.dirty = [] ∧
      processDirtyOnce (fun st _ _ _ => st) ["e"] ["e"] ["m1", "m2"] 1 s' = (s', [])) :=
  ⟨⟨by decide, by decide, by decide, by decide⟩,
    dirty_deletion_cascade (fun st _ _ _ => st) ["e"] ["e"] ["m1", "m2"] 1
      (SkState.mk [{ entityType := "e", entityID := "1", language := "en", doc := "d" }]
        [{ entityType := "e", entityID := "1", model := "m1", language := "en" },
         { entityType := "e", entityID := "1", model := "m2", language := "en" }]
        [{ entityType := "e", entityID := "1", model := "m1", language := "en", reason := "dirty" },
         { entityType := "e", entityID := "1", model := "m2", language := "en", reason := "dirty" }]
        [{ entityType := "e", entityID := "1", language := "en", isDeleted := true, reason := "gone" }])
      { entityType := "e", entityID := "1", language := "en", isDeleted := true, reason := "gone" }
      (by decide) (by decide) (by decide) (by decide)⟩

end Searchkit
